import Mathlib

/-!
# go-kms-gcp: a token vault over Cloud KMS and Datastore

A shallow embedding of `main.go`.  The program serialises a payment card,
encrypts it through a remote key-management service with CRC-32C integrity
checks on the way out and on the way back, stores the resulting `Token` in a
namespaced key-value store, and reverses the path.

Conventions of the embedding:

* a Go `[]byte` is `ByteSlice`: either the nil slice or a list of bytes;
* a Go `error` is `GoError`: `none` is the nil error;
* a `uint32` is a natural number below `2 ^ 32`, an `int64` an integer, the
  conversion between them is written out (`int64`);
* the remote clients (KMS, Datastore) and the libraries with an outcome the
  program does not decide (`encoding/json`, `uuid`, `time`) are parameters:
  a client is a transition function on an explicit client state, so that the
  number and the content of the calls a function makes can be observed;
* a run-time panic (a nil pointer dereference, `log.Panicf`) is an outcome of
  its own, distinct from returning an error.
-/

namespace KmsGcp

/-! ## Bytes, errors, outcomes -/

/-- A byte. -/
abbrev Byte := Fin 256

/-- A Go byte slice: the nil slice, or a slice holding the listed bytes. -/
inductive ByteSlice where
  | nil : ByteSlice
  | mk (data : List Byte) : ByteSlice
  deriving DecidableEq, Repr

/-- The bytes a slice ranges over; the nil slice has none. -/
def ByteSlice.toList : ByteSlice → List Byte
  | .nil => []
  | .mk data => data

/-- A non-nil Go error value.  `ErrNoSuchEntity` is the sentinel
`datastore.ErrNoSuchEntity`, compared by identity in `load`; every other error
is told apart by its message only. -/
inductive Error where
  | ErrNoSuchEntity : Error
  | mk (msg : String) : Error
  deriving DecidableEq, Repr

/-- The text of an error, as `err.Error()` and the `%v` verb print it. -/
def Error.message : Error → String
  | .ErrNoSuchEntity => "datastore: no such entity"
  | .mk msg => msg

/-- A Go `error` interface value: `none` is nil. -/
abbrev GoError := Option Error

/-- The error `fmt.Errorf` builds: a fresh error value carrying the text. -/
def fmtErrorf (text : String) : Error := Error.mk text

/-- What a call of a function with results `(α, error)` does: it returns the
pair, or it panics. -/
inductive Outcome (α : Type) where
  | ret (val : α) (err : GoError) : Outcome α
  | panic (msg : String) : Outcome α
  deriving DecidableEq, Repr

/-- The text of the run-time panic raised by reading a field through a nil
pointer. -/
def nilDereference : String :=
  "runtime error: invalid memory address or nil pointer dereference"

/-! ## CRC-32C (`hash/crc32` with the Castagnoli polynomial) -/

/-- The constant `crc32.Castagnoli`: the reversed Castagnoli polynomial. -/
def Castagnoli : Nat := 0x82f63b78

/-- One round of the inner loop of `simplePopulateTable`. -/
def crcShift (poly crc : Nat) : Nat :=
  if crc &&& 1 = 1 then (crc >>> 1) ^^^ poly else crc >>> 1

/-- The table entry `t[i]` that `simplePopulateTable` computes: eight rounds
starting from `uint32(i)`. -/
def simplePopulateEntry (poly : Nat) (i : Nat) : Nat :=
  (List.range 8).foldl (fun crc _ => crcShift poly crc) i

/-- A `crc32.Table`: 256 entries of type `uint32`. -/
abbrev Table := Fin 256 → Nat

/-- The table `crc32.MakeTable(poly)`. -/
def MakeTable (poly : Nat) : Table := fun i => simplePopulateEntry poly i.val

/-- The bitwise complement `^crc` of a `uint32`. -/
def not32 (crc : Nat) : Nat := crc ^^^ 0xffffffff

/-- The table index `byte(crc)^v`. -/
def tableIndex (crc : Nat) (v : Byte) : Fin 256 :=
  ⟨(crc % 256) ^^^ v.val,
    Nat.xor_lt_two_pow (n := 8) (Nat.mod_lt _ (by decide)) v.isLt⟩

/-- One step of the loop of `simpleUpdate`: `crc = tab[byte(crc)^v] ^ (crc >> 8)`. -/
def updateByte (tab : Table) (crc : Nat) (v : Byte) : Nat :=
  tab (tableIndex crc v) ^^^ (crc >>> 8)

/-- The function `crc32.Update`: complement, fold the bytes in, complement. -/
def Update (crc : Nat) (tab : Table) (p : List Byte) : Nat :=
  not32 (p.foldl (updateByte tab) (not32 crc))

/-- The function `crc32.Checksum`. -/
def Checksum (data : List Byte) (tab : Table) : Nat := Update 0 tab data

/-- The closure `crc32c` that `encrypt` and `decrypt` both define:
`crc32.Checksum(data, crc32.MakeTable(crc32.Castagnoli))`. -/
def crc32c (data : ByteSlice) : Nat := Checksum data.toList (MakeTable Castagnoli)

/-- The conversion `int64(x)` of a `uint32`: the value is kept, the upper 32
bits are zero (no sign extension), and the result is reduced to the signed
64-bit range. -/
def int64 (x : Nat) : Int := ((x : Int) + 2 ^ 63) % 2 ^ 64 - 2 ^ 63

/-! ## CRC-32C as the standard states it

The reference the checksum of the program is compared with: the reflected
bit-by-bit algorithm for the Castagnoli polynomial `0x1EDC6F41`, whose
bit-reversed form is `0x82f63b78`, with initial value and final exclusive-or
`0xffffffff`. -/

/-- One bit of the reference algorithm: shift right, and add the reversed
polynomial if the bit shifted out was set. -/
def referenceBit (crc : Nat) : Nat :=
  if crc % 2 = 1 then (crc / 2) ^^^ 0x82f63b78 else crc / 2

/-- One byte of the reference algorithm: add the byte to the low bits, then
eight bit steps. -/
def referenceByte (crc : Nat) (v : Byte) : Nat :=
  referenceBit (referenceBit (referenceBit (referenceBit (referenceBit (referenceBit
    (referenceBit (referenceBit (crc ^^^ v.val))))))))

/-- The CRC-32C of the bytes by the reference algorithm. -/
def referenceCRC32C (data : List Byte) : Nat :=
  (data.foldl referenceByte 0xffffffff) ^^^ 0xffffffff

/-! ## The KMS boundary (`kmspb`, `wrapperspb`, `kms.KeyManagementClient`) -/

/-- The message `wrapperspb.Int64Value`. -/
structure Int64Value where
  Value : Int
  deriving DecidableEq, Repr

/-- The constructor `wrapperspb.Int64`: a pointer to a fresh wrapper, never
nil. -/
def wrapperspbInt64 (v : Int) : Option Int64Value := some ⟨v⟩

/-- The message `kmspb.EncryptRequest`.  A wrapper field is a pointer: `none`
is nil. -/
structure EncryptRequest where
  Name : String
  Plaintext : ByteSlice
  AdditionalAuthenticatedData : ByteSlice
  PlaintextCrc32C : Option Int64Value
  AdditionalAuthenticatedDataCrc32C : Option Int64Value
  deriving DecidableEq, Repr

/-- The message `kmspb.EncryptResponse`. -/
structure EncryptResponse where
  Name : String
  Ciphertext : ByteSlice
  CiphertextCrc32C : Option Int64Value
  VerifiedPlaintextCrc32C : Bool
  VerifiedAdditionalAuthenticatedDataCrc32C : Bool
  ProtectionLevel : Int
  deriving DecidableEq, Repr

/-- The message `kmspb.DecryptRequest`. -/
structure DecryptRequest where
  Name : String
  Ciphertext : ByteSlice
  AdditionalAuthenticatedData : ByteSlice
  CiphertextCrc32C : Option Int64Value
  AdditionalAuthenticatedDataCrc32C : Option Int64Value
  deriving DecidableEq, Repr

/-- The message `kmspb.DecryptResponse`. -/
structure DecryptResponse where
  Plaintext : ByteSlice
  PlaintextCrc32C : Option Int64Value
  UsedPrimary : Bool
  ProtectionLevel : Int
  deriving DecidableEq, Repr

/-- The global `kmsClient`, seen from the program: each remote call takes the
client state and a request, and gives the next state together with either an
error or a response.  Every behaviour of the remote service is a value of
this type. -/
structure KMSClient (κ : Type) where
  Encrypt : κ → EncryptRequest → κ × Except Error EncryptResponse
  Decrypt : κ → DecryptRequest → κ × Except Error DecryptResponse

/-- The function `encrypt` of `main.go`.  The two `fmt.Printf` lines write to
standard output only and are left out. -/
def encrypt {κ : Type} (K : KMSClient κ) (s : κ) (message : ByteSlice) :
    κ × Outcome ByteSlice :=
  let plaintext := message
  let plaintextCRC32C := crc32c plaintext
  let req : EncryptRequest :=
    { Name := "projects/projectId/locations/global/keyRings/your-ring/cryptoKeys/your-key"
      Plaintext := plaintext
      AdditionalAuthenticatedData := ByteSlice.nil
      PlaintextCrc32C := wrapperspbInt64 (int64 plaintextCRC32C)
      AdditionalAuthenticatedDataCrc32C := none }
  match K.Encrypt s req with
  | (s1, Except.error err) =>
    (s1, Outcome.ret ByteSlice.nil
      (some (fmtErrorf ("failed to encrypt: " ++ err.message ++ "\n"))))
  | (s1, Except.ok result) =>
    if result.VerifiedPlaintextCrc32C = false then
      (s1, Outcome.ret ByteSlice.nil
        (some (fmtErrorf "Encrypt: request corrupted in-transit")))
    else
      match result.CiphertextCrc32C with
      | none => (s1, Outcome.panic nilDereference)
      | some reported =>
        if int64 (crc32c result.Ciphertext) ≠ reported.Value then
          (s1, Outcome.ret ByteSlice.nil
            (some (fmtErrorf "Encrypt: response corrupted in-transit")))
        else
          (s1, Outcome.ret result.Ciphertext none)

/-- The function `decrypt` of `main.go`. -/
def decrypt {κ : Type} (K : KMSClient κ) (s : κ) (ciphertext : ByteSlice) :
    κ × Outcome ByteSlice :=
  let ciphertextCRC32C := crc32c ciphertext
  let req : DecryptRequest :=
    { Name := "projects/projectId/locations/global/keyRings/your-ring/cryptoKeys/your-key"
      Ciphertext := ciphertext
      AdditionalAuthenticatedData := ByteSlice.nil
      CiphertextCrc32C := wrapperspbInt64 (int64 ciphertextCRC32C)
      AdditionalAuthenticatedDataCrc32C := none }
  match K.Decrypt s req with
  | (s1, Except.error err) =>
    (s1, Outcome.ret ByteSlice.nil
      (some (fmtErrorf ("failed to decrypt ciphertext: " ++ err.message ++ "\n"))))
  | (s1, Except.ok result) =>
    match result.PlaintextCrc32C with
    | none => (s1, Outcome.panic nilDereference)
    | some reported =>
      if int64 (crc32c result.Plaintext) ≠ reported.Value then
        (s1, Outcome.ret ByteSlice.nil
          (some (fmtErrorf "Decrypt: response corrupted in-transit")))
      else
        (s1, Outcome.ret result.Plaintext none)

/-! ## The data model -/

/-- The struct `Card`. -/
structure Card where
  Number : String
  CardHolderName : String
  ExpirationMonth : String
  ExpirationYear : String
  deriving DecidableEq, Repr

/-- The zero value `Card{}`. -/
def Card.zero : Card := ⟨"", "", "", ""⟩

/-- A `time.Time`: an instant, counted in nanoseconds from the zero time. -/
abbrev Time := Int

/-- The struct `Token`. -/
structure Token where
  Id : String
  MerchantId : String
  Provider : String
  CardId : String
  TokenProvider : String
  DataCypheredCard : ByteSlice
  Date : Time
  deriving DecidableEq, Repr

/-- The zero value `Token{}`. -/
def Token.zero : Token := ⟨"", "", "", "", "", ByteSlice.nil, 0⟩

/-! ## The Datastore boundary -/

/-- A `datastore.Key`.  The parent key is nil in every key this program
builds and is not represented. -/
structure Key where
  Kind : String
  ID : Int
  Name : String
  Namespace : String
  deriving DecidableEq, Repr

/-- The constructor `datastore.NameKey(kind, name, nil)`. -/
def NameKey (kind name : String) : Key :=
  { Kind := kind, ID := 0, Name := name, Namespace := "" }

/-- The function `generateKey` of `main.go`. -/
def generateKey (id : String) : Key :=
  let key := NameKey "Token" id
  { key with Namespace := "stage" }

/-- The global `datastoreClient`, seen from the program.  `Put` gives the next
state and the error; `Get` is handed the destination struct and gives the next
state, the destination as the call left it, and the error. -/
structure DatastoreClient (δ : Type) where
  Put : δ → Key → Token → δ × GoError
  Get : δ → Key → Token → δ × Token × GoError

/-- The function `save` of `main.go`; the `log.Printf` line is left out. -/
def save {δ : Type} (D : DatastoreClient δ) (s : δ) (token : Token) : δ × GoError :=
  D.Put s (generateKey token.Id) token

/-- The function `load` of `main.go`. -/
def load {δ : Type} (D : DatastoreClient δ) (s : δ) (id : String) :
    δ × Token × GoError :=
  match D.Get s (generateKey id) Token.zero with
  | (s1, _, some err) =>
    if err = Error.ErrNoSuchEntity then (s1, Token.zero, none)
    else (s1, Token.zero, some err)
  | (s1, token, none) => (s1, token, none)

/-! ## The driver -/

/-- The two functions of `encoding/json` the program calls, at the type it
calls them: `json.Marshal(&Card{...})` and `json.Unmarshal(data, &newCard)`.
`Unmarshal` is handed the destination struct and gives it back as the call
left it, with the error. -/
structure JSONCodec where
  Marshal : Card → ByteSlice × GoError
  Unmarshal : ByteSlice → Card → Card × GoError

/-- The body of `createDataCard` of `main.go`, with the card literal as an
argument. -/
def createDataCardOf (J : JSONCodec) (card : Card) : ByteSlice × GoError :=
  J.Marshal card

/-- The card literal of `createDataCard`. -/
def sourceCard : Card :=
  { Number := "4024007129267307"
    CardHolderName := "JOÃO DOS SANTOS ANDRÉ"
    ExpirationMonth := "10"
    ExpirationYear := "30" }

/-- The function `createDataCard` of `main.go`. -/
def createDataCard (J : JSONCodec) : ByteSlice × GoError :=
  createDataCardOf J sourceCard

/-- Everything `main` reaches outside the program: the two global clients set
by `initClients`, the JSON library, the identifier `uuid.New().String()` gives
and the instant `time.Now().UTC()` gives. -/
structure Env (κ δ : Type) where
  kmsClient : KMSClient κ
  datastoreClient : DatastoreClient δ
  json : JSONCodec
  newUUID : String
  nowUTC : Time

/-- What a run of `main` does: it panics, or it ends after printing cards with
`fmt.Println`, in this order. -/
inductive MainOutcome where
  | panic (msg : String) : MainOutcome
  | done (printed : List Card) : MainOutcome
  deriving DecidableEq, Repr

/-- The panic of `log.Panicf("there is error: %v\n", err)`. -/
def logPanicf (err : Error) : MainOutcome :=
  MainOutcome.panic ("there is error: " ++ err.message ++ "\n")

/-- The body of `main` after `initClients`, for the card `createDataCardOf`
serialises.  `ks` and `ds` are the states of the two clients when it starts. -/
def mainOf {κ δ : Type} (E : Env κ δ) (ks : κ) (ds : δ) (card : Card) : MainOutcome :=
  match createDataCardOf E.json card with
  | (_, some err) => logPanicf err
  | (bytes, none) =>
  match encrypt E.kmsClient ks bytes with
  | (_, Outcome.panic msg) => MainOutcome.panic msg
  | (_, Outcome.ret _ (some err)) => logPanicf err
  | (ks1, Outcome.ret dataEncrypted none) =>
  let token : Token :=
    { Id := E.newUUID
      MerchantId := "teste-artur"
      Provider := "provider"
      CardId := ""
      TokenProvider := ""
      DataCypheredCard := dataEncrypted
      Date := E.nowUTC }
  match save E.datastoreClient ds token with
  | (_, some err) => logPanicf err
  | (ds1, none) =>
  match decrypt E.kmsClient ks1 dataEncrypted with
  | (_, Outcome.panic msg) => MainOutcome.panic msg
  | (_, Outcome.ret _ (some err)) => logPanicf err
  | (ks2, Outcome.ret data none) =>
  match E.json.Unmarshal data Card.zero with
  | (_, some err) => logPanicf err
  | (newCard, none) =>
  match load E.datastoreClient ds1 token.Id with
  | (_, _, some err) => logPanicf err
  | (_, loaded, none) =>
  match decrypt E.kmsClient ks2 loaded.DataCypheredCard with
  | (_, Outcome.panic msg) => MainOutcome.panic msg
  | (_, Outcome.ret _ (some err)) => logPanicf err
  | (_, Outcome.ret data2 none) =>
  match E.json.Unmarshal data2 Card.zero with
  | (_, some err) => logPanicf err
  | (newCard2, none) => MainOutcome.done [newCard, newCard2]

/-- The function `main` of `main.go`, after `initClients`. -/
def main {κ δ : Type} (E : Env κ δ) (ks : κ) (ds : δ) : MainOutcome :=
  mainOf E ks ds sourceCard

/-! ## Requests, and a client that records them -/

/-- The request `encrypt` builds for a message (the value of `req` at the call
of `kmsClient.Encrypt`). -/
def encryptRequestOf (message : ByteSlice) : EncryptRequest :=
  { Name := "projects/projectId/locations/global/keyRings/your-ring/cryptoKeys/your-key"
    Plaintext := message
    AdditionalAuthenticatedData := ByteSlice.nil
    PlaintextCrc32C := some ⟨int64 (crc32c message)⟩
    AdditionalAuthenticatedDataCrc32C := none }

/-- The request `decrypt` builds for a ciphertext. -/
def decryptRequestOf (ciphertext : ByteSlice) : DecryptRequest :=
  { Name := "projects/projectId/locations/global/keyRings/your-ring/cryptoKeys/your-key"
    Ciphertext := ciphertext
    AdditionalAuthenticatedData := ByteSlice.nil
    CiphertextCrc32C := some ⟨int64 (crc32c ciphertext)⟩
    AdditionalAuthenticatedDataCrc32C := none }

/-- A remote call, as the service sees it. -/
inductive Call where
  | encrypt (req : EncryptRequest) : Call
  | decrypt (req : DecryptRequest) : Call
  deriving DecidableEq, Repr

/-- A client that behaves as `K` does and keeps, next to the state of `K`, the
list of the calls made so far, oldest first. -/
def recording {κ : Type} (K : KMSClient κ) : KMSClient (κ × List Call) :=
  { Encrypt := fun s req =>
      (((K.Encrypt s.1 req).1, s.2 ++ [Call.encrypt req]), (K.Encrypt s.1 req).2)
    Decrypt := fun s req =>
      (((K.Decrypt s.1 req).1, s.2 ++ [Call.decrypt req]), (K.Decrypt s.1 req).2) }

/-- A client without state that answers every `Encrypt` call with `e` and
every `Decrypt` call with `d`. -/
def cannedKMS (e : Except Error EncryptResponse) (d : Except Error DecryptResponse) :
    KMSClient Unit :=
  { Encrypt := fun _ _ => ((), e)
    Decrypt := fun _ _ => ((), d) }

/-! ## A key-value store as a map -/

/-- The state of the map store: the records, each under its key. -/
abbrev MapStore := List (Key × Token)

/-- The record under a key, if there is one. -/
def MapStore.lookup : MapStore → Key → Option Token
  | [], _ => none
  | (k1, t) :: rest, k => if k1 = k then some t else MapStore.lookup rest k

/-- Upsert: replace the record under the key, or add one. -/
def MapStore.upsert : MapStore → Key → Token → MapStore
  | [], k, t => [(k, t)]
  | (k1, t1) :: rest, k, t =>
    if k1 = k then (k, t) :: rest else (k1, t1) :: MapStore.upsert rest k t

/-- The Datastore client over a map: `Put` upserts and never fails, `Get`
loads the record under the key into the destination, or reports
`ErrNoSuchEntity` and leaves the destination as it was. -/
def mapStore : DatastoreClient MapStore :=
  { Put := fun s k t => (MapStore.upsert s k t, none)
    Get := fun s k dst =>
      match MapStore.lookup s k with
      | some t => (s, t, none)
      | none => (s, dst, some Error.ErrNoSuchEntity) }

/-- A Datastore client without state whose `Get` always ends the same way. -/
def cannedStore (dst : Token) (err : GoError) : DatastoreClient Unit :=
  { Put := fun _ _ _ => ((), none)
    Get := fun _ _ _ => ((), dst, err) }

/-! ## Stand-ins for the remote service and the JSON library

Used to run the program on concrete inputs. -/

/-- The byte with the bits of `0x5a` flipped. -/
def flipByte (b : Byte) : Byte :=
  ⟨b.val ^^^ 0x5a, Nat.xor_lt_two_pow (n := 8) b.isLt (by decide)⟩

/-- A service that keeps its promises: `Encrypt` flips bits of every byte,
reports the CRC-32C of the ciphertext it returns and whether the checksum it
was sent is the CRC-32C of the plaintext it was sent; `Decrypt` flips the bits
back and reports the CRC-32C of the plaintext it returns. -/
def flipKMS : KMSClient Unit :=
  { Encrypt := fun _ req =>
      ((), Except.ok
        { Name := req.Name ++ "/cryptoKeyVersions/1"
          Ciphertext := ByteSlice.mk (req.Plaintext.toList.map flipByte)
          CiphertextCrc32C :=
            some ⟨int64 (crc32c (ByteSlice.mk (req.Plaintext.toList.map flipByte)))⟩
          VerifiedPlaintextCrc32C :=
            decide (req.PlaintextCrc32C = some ⟨int64 (crc32c req.Plaintext)⟩)
          VerifiedAdditionalAuthenticatedDataCrc32C := false
          ProtectionLevel := 1 })
    Decrypt := fun _ req =>
      ((), Except.ok
        { Plaintext := ByteSlice.mk (req.Ciphertext.toList.map flipByte)
          PlaintextCrc32C :=
            some ⟨int64 (crc32c (ByteSlice.mk (req.Ciphertext.toList.map flipByte)))⟩
          UsedPrimary := true
          ProtectionLevel := 1 }) }

/-- The byte of an ASCII character. -/
def asciiByte (c : Char) : Byte := Fin.ofNat c.toNat

/-- The bytes of an ASCII string. -/
def ascii (s : String) : List Byte := s.toList.map asciiByte

/-- The ASCII string of the bytes. -/
def asciiString (bs : List Byte) : String := String.mk (bs.map fun b => Char.ofNat b.val)

/-- One member of a JSON object, `"name":"value"`; 34 is the double quote and
58 the colon. -/
def jsonMember (name value : String) : List Byte :=
  [34] ++ ascii name ++ [34, 58, 34] ++ ascii value ++ [34]

/-- The JSON object of a card whose fields need no escaping; 123 and 125 are
the braces and 44 the comma. -/
def plainMarshal (c : Card) : ByteSlice × GoError :=
  (ByteSlice.mk ([123] ++ jsonMember "Number" c.Number ++ [44]
      ++ jsonMember "CardHolderName" c.CardHolderName ++ [44]
      ++ jsonMember "ExpirationMonth" c.ExpirationMonth ++ [44]
      ++ jsonMember "ExpirationYear" c.ExpirationYear ++ [125]), none)

/-- The input after the expected bytes, if it starts with them. -/
def expectBytes : List Byte → List Byte → Option (List Byte)
  | [], input => some input
  | _ :: _, [] => none
  | b :: bs, i :: input => if b = i then expectBytes bs input else none

/-- The bytes before the next double quote, and the input after it. -/
def untilQuote : List Byte → Option (List Byte × List Byte)
  | [] => none
  | b :: rest =>
    if b = 34 then some ([], rest)
    else (untilQuote rest).map fun p => (b :: p.1, p.2)

/-- The value of the member with the given name at the head of the input, and
the input after the member. -/
def readMember (name : String) (input : List Byte) : Option (String × List Byte) :=
  (expectBytes ([34] ++ ascii name ++ [34, 58, 34]) input).bind fun rest =>
    (untilQuote rest).map fun p => (asciiString p.1, p.2)

/-- The card of a JSON object written by `plainMarshal`. -/
def readCard (input : List Byte) : Option Card :=
  (expectBytes [123] input).bind fun r0 =>
  (readMember "Number" r0).bind fun m1 =>
  (expectBytes [44] m1.2).bind fun r1 =>
  (readMember "CardHolderName" r1).bind fun m2 =>
  (expectBytes [44] m2.2).bind fun r2 =>
  (readMember "ExpirationMonth" r2).bind fun m3 =>
  (expectBytes [44] m3.2).bind fun r3 =>
  (readMember "ExpirationYear" r3).bind fun m4 =>
  (expectBytes [125] m4.2).bind fun r4 =>
  if r4 = [] then some ⟨m1.1, m2.1, m3.1, m4.1⟩ else none

/-- A JSON codec for cards whose fields are ASCII text without double quotes:
it writes the object member by member and reads back what it wrote. -/
def plainJSON : JSONCodec :=
  { Marshal := plainMarshal
    Unmarshal := fun data dst =>
      match readCard data.toList with
      | some c => (c, none)
      | none => (dst, some (Error.mk "invalid character")) }

/-- Whether the JSON writer of Go copies the character as it is: printable
ASCII other than the double quote, the backslash and the three characters it
escapes for HTML (`<`, `>`, `&`). -/
def plainChar (c : Char) : Bool :=
  decide (32 ≤ c.toNat) && decide (c.toNat < 127) && !(c.toNat == 34) && !(c.toNat == 92)
    && !(c.toNat == 60) && !(c.toNat == 62) && !(c.toNat == 38)

/-- Whether every character of the string is plain. -/
def plainString (s : String) : Bool := s.toList.all plainChar

/-- Whether every field of the card is a plain string. -/
def plainCard (c : Card) : Bool :=
  plainString c.Number && plainString c.CardHolderName &&
    plainString c.ExpirationMonth && plainString c.ExpirationYear

/-- The card of the scenario of the specification. -/
def johnDoe : Card :=
  { Number := "4024007129267307"
    CardHolderName := "JOHN DOE"
    ExpirationMonth := "10"
    ExpirationYear := "30" }

/-- An environment made of the stand-ins and the map store. -/
def standInEnv : Env Unit MapStore :=
  { kmsClient := flipKMS
    datastoreClient := mapStore
    json := plainJSON
    newUUID := "6ba7b810-9dad-11d1-80b4-00c04fd430c8"
    nowUTC := 1700000000000000000 }

/-! ## Sample responses -/

/-- Four bytes standing for what the service returns. -/
def sampleBytes : ByteSlice := ByteSlice.mk [0xde, 0xad, 0xbe, 0xef]

/-- An `Encrypt` response that returns `sampleBytes` with the given verified
flag and the given checksum wrapper. -/
def encryptResponseWith (verified : Bool) (reported : Option Int64Value) :
    EncryptResponse :=
  { Name := "projects/projectId/locations/global/keyRings/your-ring/cryptoKeys/your-key/cryptoKeyVersions/1"
    Ciphertext := sampleBytes
    CiphertextCrc32C := reported
    VerifiedPlaintextCrc32C := verified
    VerifiedAdditionalAuthenticatedDataCrc32C := false
    ProtectionLevel := 1 }

/-- A `Decrypt` response that returns `sampleBytes` with the given checksum
wrapper. -/
def decryptResponseWith (reported : Option Int64Value) : DecryptResponse :=
  { Plaintext := sampleBytes
    PlaintextCrc32C := reported
    UsedPrimary := true
    ProtectionLevel := 1 }

/-- A service that answers every call with `sampleBytes` and the given
wrappers, the verified flag set. -/
def sampleKMS (encReported decReported : Option Int64Value) : KMSClient Unit :=
  cannedKMS (Except.ok (encryptResponseWith true encReported))
    (Except.ok (decryptResponseWith decReported))

/-! ## The checksum fits in 32 bits -/

theorem shiftRight_le_self (n k : Nat) : n >>> k ≤ n := by
  rw [Nat.shiftRight_eq_div_pow]
  exact Nat.div_le_self n (2 ^ k)

theorem crcShift_lt {poly crc : Nat} (hp : poly < 2 ^ 32) (hc : crc < 2 ^ 32) :
    crcShift poly crc < 2 ^ 32 := by
  have hs : crc >>> 1 < 2 ^ 32 := lt_of_le_of_lt (shiftRight_le_self crc 1) hc
  unfold crcShift
  split
  · exact Nat.xor_lt_two_pow hs hp
  · exact hs

theorem foldl_crcShift_lt {poly : Nat} (hp : poly < 2 ^ 32) (l : List Nat) :
    ∀ crc : Nat, crc < 2 ^ 32 → l.foldl (fun c _ => crcShift poly c) crc < 2 ^ 32 := by
  induction l with
  | nil => intro crc hc; simpa using hc
  | cons _ rest ih =>
    intro crc hc
    simp only [List.foldl_cons]
    exact ih _ (crcShift_lt hp hc)

theorem MakeTable_lt {poly : Nat} (hp : poly < 2 ^ 32) (i : Fin 256) :
    MakeTable poly i < 2 ^ 32 := by
  unfold MakeTable simplePopulateEntry
  exact foldl_crcShift_lt hp _ _ (lt_trans i.isLt (by norm_num))

theorem not32_lt {crc : Nat} (hc : crc < 2 ^ 32) : not32 crc < 2 ^ 32 := by
  unfold not32
  exact Nat.xor_lt_two_pow hc (by norm_num)

theorem updateByte_lt {tab : Table} (ht : ∀ i, tab i < 2 ^ 32) {crc : Nat}
    (hc : crc < 2 ^ 32) (v : Byte) : updateByte tab crc v < 2 ^ 32 := by
  unfold updateByte
  exact Nat.xor_lt_two_pow (ht _) (lt_of_le_of_lt (shiftRight_le_self crc 8) hc)

theorem foldl_updateByte_lt {tab : Table} (ht : ∀ i, tab i < 2 ^ 32) (p : List Byte) :
    ∀ crc : Nat, crc < 2 ^ 32 → p.foldl (updateByte tab) crc < 2 ^ 32 := by
  induction p with
  | nil => intro crc hc; simpa using hc
  | cons v rest ih =>
    intro crc hc
    simp only [List.foldl_cons]
    exact ih _ (updateByte_lt ht hc v)

theorem Update_lt {tab : Table} (ht : ∀ i, tab i < 2 ^ 32) {crc : Nat}
    (hc : crc < 2 ^ 32) (p : List Byte) : Update crc tab p < 2 ^ 32 := by
  unfold Update
  exact not32_lt (foldl_updateByte_lt ht p _ (not32_lt hc))

theorem crc32c_lt (data : ByteSlice) : crc32c data < 2 ^ 32 := by
  unfold crc32c Checksum
  exact Update_lt (fun i => MakeTable_lt (by norm_num [Castagnoli]) i) (by norm_num) _

theorem int64_of_lt {x : Nat} (hx : x < 2 ^ 63) : int64 x = (x : Int) := by
  unfold int64
  have h0 : (0 : Int) ≤ (x : Int) := Int.ofNat_nonneg x
  have h1 : ((x : Int)) < 2 ^ 63 := by exact_mod_cast hx
  rw [Int.emod_eq_of_lt (by omega) (by omega)]
  omega

theorem int64_crc32c (data : ByteSlice) : int64 (crc32c data) = (crc32c data : Int) :=
  int64_of_lt (lt_trans (crc32c_lt data) (by norm_num))

theorem int64_crc32c_nonneg (data : ByteSlice) : 0 ≤ int64 (crc32c data) := by
  rw [int64_crc32c]; exact Int.ofNat_nonneg _

theorem int64_crc32c_lt (data : ByteSlice) : int64 (crc32c data) < 2 ^ 32 := by
  rw [int64_crc32c]; exact_mod_cast crc32c_lt data

/-! ## The branches of `encrypt` and `decrypt` -/

theorem encrypt_of_error {κ : Type} (K : KMSClient κ) (s s1 : κ) (m : ByteSlice)
    (err : Error) (h : K.Encrypt s (encryptRequestOf m) = (s1, Except.error err)) :
    encrypt K s m = (s1, Outcome.ret ByteSlice.nil
      (some (fmtErrorf ("failed to encrypt: " ++ err.message ++ "\n")))) := by
  simp only [encryptRequestOf] at h
  simp only [encrypt, wrapperspbInt64, h]

theorem encrypt_of_unverified {κ : Type} (K : KMSClient κ) (s s1 : κ) (m : ByteSlice)
    (resp : EncryptResponse) (h : K.Encrypt s (encryptRequestOf m) = (s1, Except.ok resp))
    (hf : resp.VerifiedPlaintextCrc32C = false) :
    encrypt K s m = (s1, Outcome.ret ByteSlice.nil
      (some (fmtErrorf "Encrypt: request corrupted in-transit"))) := by
  simp only [encryptRequestOf] at h
  simp only [encrypt, wrapperspbInt64, h, hf, if_true]

theorem encrypt_of_absent {κ : Type} (K : KMSClient κ) (s s1 : κ) (m : ByteSlice)
    (resp : EncryptResponse) (h : K.Encrypt s (encryptRequestOf m) = (s1, Except.ok resp))
    (hf : resp.VerifiedPlaintextCrc32C = true) (hw : resp.CiphertextCrc32C = none) :
    encrypt K s m = (s1, Outcome.panic nilDereference) := by
  simp only [encryptRequestOf] at h
  simp [encrypt, wrapperspbInt64, h, hf, hw]

theorem encrypt_of_mismatch {κ : Type} (K : KMSClient κ) (s s1 : κ) (m : ByteSlice)
    (resp : EncryptResponse) (w : Int64Value)
    (h : K.Encrypt s (encryptRequestOf m) = (s1, Except.ok resp))
    (hf : resp.VerifiedPlaintextCrc32C = true) (hw : resp.CiphertextCrc32C = some w)
    (hne : int64 (crc32c resp.Ciphertext) ≠ w.Value) :
    encrypt K s m = (s1, Outcome.ret ByteSlice.nil
      (some (fmtErrorf "Encrypt: response corrupted in-transit"))) := by
  simp only [encryptRequestOf] at h
  simp [encrypt, wrapperspbInt64, h, hf, hw, hne]

theorem encrypt_of_match {κ : Type} (K : KMSClient κ) (s s1 : κ) (m : ByteSlice)
    (resp : EncryptResponse) (w : Int64Value)
    (h : K.Encrypt s (encryptRequestOf m) = (s1, Except.ok resp))
    (hf : resp.VerifiedPlaintextCrc32C = true) (hw : resp.CiphertextCrc32C = some w)
    (heq : int64 (crc32c resp.Ciphertext) = w.Value) :
    encrypt K s m = (s1, Outcome.ret resp.Ciphertext none) := by
  simp only [encryptRequestOf] at h
  simp [encrypt, wrapperspbInt64, h, hf, hw, heq]

theorem decrypt_of_error {κ : Type} (K : KMSClient κ) (s s1 : κ) (c : ByteSlice)
    (err : Error) (h : K.Decrypt s (decryptRequestOf c) = (s1, Except.error err)) :
    decrypt K s c = (s1, Outcome.ret ByteSlice.nil
      (some (fmtErrorf ("failed to decrypt ciphertext: " ++ err.message ++ "\n")))) := by
  simp only [decryptRequestOf] at h
  simp only [decrypt, wrapperspbInt64, h]

theorem decrypt_of_absent {κ : Type} (K : KMSClient κ) (s s1 : κ) (c : ByteSlice)
    (resp : DecryptResponse) (h : K.Decrypt s (decryptRequestOf c) = (s1, Except.ok resp))
    (hw : resp.PlaintextCrc32C = none) :
    decrypt K s c = (s1, Outcome.panic nilDereference) := by
  simp only [decryptRequestOf] at h
  simp [decrypt, wrapperspbInt64, h, hw]

theorem decrypt_of_mismatch {κ : Type} (K : KMSClient κ) (s s1 : κ) (c : ByteSlice)
    (resp : DecryptResponse) (w : Int64Value)
    (h : K.Decrypt s (decryptRequestOf c) = (s1, Except.ok resp))
    (hw : resp.PlaintextCrc32C = some w)
    (hne : int64 (crc32c resp.Plaintext) ≠ w.Value) :
    decrypt K s c = (s1, Outcome.ret ByteSlice.nil
      (some (fmtErrorf "Decrypt: response corrupted in-transit"))) := by
  simp only [decryptRequestOf] at h
  simp [decrypt, wrapperspbInt64, h, hw, hne]

theorem decrypt_of_match {κ : Type} (K : KMSClient κ) (s s1 : κ) (c : ByteSlice)
    (resp : DecryptResponse) (w : Int64Value)
    (h : K.Decrypt s (decryptRequestOf c) = (s1, Except.ok resp))
    (hw : resp.PlaintextCrc32C = some w)
    (heq : int64 (crc32c resp.Plaintext) = w.Value) :
    decrypt K s c = (s1, Outcome.ret resp.Plaintext none) := by
  simp only [decryptRequestOf] at h
  simp [decrypt, wrapperspbInt64, h, hw, heq]

theorem encrypt_cases {κ : Type} (K : KMSClient κ) (s : κ) (m : ByteSlice) :
    (∃ s1 err, K.Encrypt s (encryptRequestOf m) = (s1, Except.error err) ∧
      encrypt K s m = (s1, Outcome.ret ByteSlice.nil
        (some (Error.mk ("failed to encrypt: " ++ err.message ++ "\n"))))) ∨
    (∃ s1 resp, K.Encrypt s (encryptRequestOf m) = (s1, Except.ok resp) ∧
      resp.VerifiedPlaintextCrc32C = false ∧
      encrypt K s m = (s1, Outcome.ret ByteSlice.nil
        (some (Error.mk "Encrypt: request corrupted in-transit")))) ∨
    (∃ s1 resp, K.Encrypt s (encryptRequestOf m) = (s1, Except.ok resp) ∧
      resp.VerifiedPlaintextCrc32C = true ∧ resp.CiphertextCrc32C = none ∧
      encrypt K s m = (s1, Outcome.panic nilDereference)) ∨
    (∃ s1 resp w, K.Encrypt s (encryptRequestOf m) = (s1, Except.ok resp) ∧
      resp.VerifiedPlaintextCrc32C = true ∧ resp.CiphertextCrc32C = some w ∧
      w.Value ≠ (crc32c resp.Ciphertext : Int) ∧
      encrypt K s m = (s1, Outcome.ret ByteSlice.nil
        (some (Error.mk "Encrypt: response corrupted in-transit")))) ∨
    (∃ s1 resp w, K.Encrypt s (encryptRequestOf m) = (s1, Except.ok resp) ∧
      resp.VerifiedPlaintextCrc32C = true ∧ resp.CiphertextCrc32C = some w ∧
      w.Value = (crc32c resp.Ciphertext : Int) ∧
      encrypt K s m = (s1, Outcome.ret resp.Ciphertext none)) := by
  rcases hr : K.Encrypt s (encryptRequestOf m) with ⟨s1, r⟩
  rcases r with err | resp
  · exact Or.inl ⟨s1, err, rfl, encrypt_of_error K s s1 m err hr⟩
  · by_cases hf : resp.VerifiedPlaintextCrc32C = true
    · rcases hw : resp.CiphertextCrc32C with _ | w
      · exact Or.inr (Or.inr (Or.inl ⟨s1, resp, rfl, hf, hw,
          encrypt_of_absent K s s1 m resp hr hf hw⟩))
      · by_cases heq : int64 (crc32c resp.Ciphertext) = w.Value
        · exact Or.inr (Or.inr (Or.inr (Or.inr ⟨s1, resp, w, rfl, hf, hw,
            by rw [← heq, int64_crc32c], encrypt_of_match K s s1 m resp w hr hf hw heq⟩)))
        · exact Or.inr (Or.inr (Or.inr (Or.inl ⟨s1, resp, w, rfl, hf, hw,
            fun h => heq (by rw [int64_crc32c, h]),
            encrypt_of_mismatch K s s1 m resp w hr hf hw heq⟩)))
    · have hf2 : resp.VerifiedPlaintextCrc32C = false := by simpa using hf
      exact Or.inr (Or.inl ⟨s1, resp, rfl, hf2, encrypt_of_unverified K s s1 m resp hr hf2⟩)

theorem decrypt_cases {κ : Type} (K : KMSClient κ) (s : κ) (c : ByteSlice) :
    (∃ s1 err, K.Decrypt s (decryptRequestOf c) = (s1, Except.error err) ∧
      decrypt K s c = (s1, Outcome.ret ByteSlice.nil
        (some (Error.mk ("failed to decrypt ciphertext: " ++ err.message ++ "\n"))))) ∨
    (∃ s1 resp, K.Decrypt s (decryptRequestOf c) = (s1, Except.ok resp) ∧
      resp.PlaintextCrc32C = none ∧
      decrypt K s c = (s1, Outcome.panic nilDereference)) ∨
    (∃ s1 resp w, K.Decrypt s (decryptRequestOf c) = (s1, Except.ok resp) ∧
      resp.PlaintextCrc32C = some w ∧ w.Value ≠ (crc32c resp.Plaintext : Int) ∧
      decrypt K s c = (s1, Outcome.ret ByteSlice.nil
        (some (Error.mk "Decrypt: response corrupted in-transit")))) ∨
    (∃ s1 resp w, K.Decrypt s (decryptRequestOf c) = (s1, Except.ok resp) ∧
      resp.PlaintextCrc32C = some w ∧ w.Value = (crc32c resp.Plaintext : Int) ∧
      decrypt K s c = (s1, Outcome.ret resp.Plaintext none)) := by
  rcases hr : K.Decrypt s (decryptRequestOf c) with ⟨s1, r⟩
  rcases r with err | resp
  · exact Or.inl ⟨s1, err, rfl, decrypt_of_error K s s1 c err hr⟩
  · rcases hw : resp.PlaintextCrc32C with _ | w
    · exact Or.inr (Or.inl ⟨s1, resp, rfl, hw, decrypt_of_absent K s s1 c resp hr hw⟩)
    · by_cases heq : int64 (crc32c resp.Plaintext) = w.Value
      · exact Or.inr (Or.inr (Or.inr ⟨s1, resp, w, rfl, hw,
          by rw [← heq, int64_crc32c], decrypt_of_match K s s1 c resp w hr hw heq⟩))
      · exact Or.inr (Or.inr (Or.inl ⟨s1, resp, w, rfl, hw,
          fun h => heq (by rw [int64_crc32c, h]),
          decrypt_of_mismatch K s s1 c resp w hr hw heq⟩))

theorem recording_encrypt_log {κ : Type} (K : KMSClient κ) (s : κ) (log : List Call)
    (m : ByteSlice) :
    (encrypt (recording K) (s, log) m).1.2 = log ++ [Call.encrypt (encryptRequestOf m)] := by
  have hs : ((recording K).Encrypt (s, log) (encryptRequestOf m)).1.2 =
      log ++ [Call.encrypt (encryptRequestOf m)] := rfl
  rcases encrypt_cases (recording K) (s, log) m with
    ⟨s1, _, hr, h⟩ | ⟨s1, _, hr, _, h⟩ | ⟨s1, _, hr, _, _, h⟩ | ⟨s1, _, _, hr, _, _, _, h⟩ |
    ⟨s1, _, _, hr, _, _, _, h⟩ <;>
  · rw [h]; rw [hr] at hs; exact hs

theorem recording_decrypt_log {κ : Type} (K : KMSClient κ) (s : κ) (log : List Call)
    (c : ByteSlice) :
    (decrypt (recording K) (s, log) c).1.2 = log ++ [Call.decrypt (decryptRequestOf c)] := by
  have hs : ((recording K).Decrypt (s, log) (decryptRequestOf c)).1.2 =
      log ++ [Call.decrypt (decryptRequestOf c)] := rfl
  rcases decrypt_cases (recording K) (s, log) c with
    ⟨s1, _, hr, h⟩ | ⟨s1, _, hr, _, h⟩ | ⟨s1, _, _, hr, _, _, h⟩ | ⟨s1, _, _, hr, _, _, h⟩ <;>
  · rw [h]; rw [hr] at hs; exact hs

theorem crc32c_sampleBytes : crc32c sampleBytes = 0xf1dc778e := by decide

/-! ## Claims about `encrypt` -/

/-- C3: a successful `Encrypt` response whose verified-plaintext-checksum flag
is false makes `encrypt` return no ciphertext and the error "Encrypt: request
corrupted in-transit", whatever ciphertext and ciphertext checksum the
response carries: the flag is tested before the checksum is read. -/
theorem encrypt_unverified_flag_request_corrupted {κ : Type} (K : KMSClient κ)
    (s s1 : κ) (message : ByteSlice) (resp : EncryptResponse)
    (hcall : K.Encrypt s (encryptRequestOf message) = (s1, Except.ok resp))
    (hflag : resp.VerifiedPlaintextCrc32C = false) :
    (encrypt K s message).2 =
      Outcome.ret ByteSlice.nil (some (Error.mk "Encrypt: request corrupted in-transit")) := by
  rw [encrypt_of_unverified K s s1 message resp hcall hflag]
  rfl

/-- Witness of C3: the flag is false while the reported ciphertext checksum is
the right one, and once more while it is a wrong one. -/
theorem encrypt_unverified_flag_request_corrupted_witness :
    (encrypt (cannedKMS (Except.ok (encryptResponseWith false (some ⟨0xf1dc778e⟩)))
        (Except.ok (decryptResponseWith none))) () (ByteSlice.mk [1, 2, 3])).2 =
      Outcome.ret ByteSlice.nil (some (Error.mk "Encrypt: request corrupted in-transit")) ∧
    (encrypt (cannedKMS (Except.ok (encryptResponseWith false (some ⟨7⟩)))
        (Except.ok (decryptResponseWith none))) () (ByteSlice.mk [1, 2, 3])).2 =
      Outcome.ret ByteSlice.nil (some (Error.mk "Encrypt: request corrupted in-transit")) :=
  ⟨encrypt_unverified_flag_request_corrupted _ () () _ _ rfl rfl,
    encrypt_unverified_flag_request_corrupted _ () () _ _ rfl rfl⟩

/-- C4: a successful `Encrypt` response whose verified flag is true and whose
reported ciphertext checksum differs from the CRC-32C recomputed over the
returned ciphertext makes `encrypt` return no ciphertext and the error
"Encrypt: response corrupted in-transit". -/
theorem encrypt_checksum_mismatch_response_corrupted {κ : Type} (K : KMSClient κ)
    (s s1 : κ) (message : ByteSlice) (resp : EncryptResponse) (reported : Int64Value)
    (hcall : K.Encrypt s (encryptRequestOf message) = (s1, Except.ok resp))
    (hflag : resp.VerifiedPlaintextCrc32C = true)
    (hreported : resp.CiphertextCrc32C = some reported)
    (hdiff : reported.Value ≠ (crc32c resp.Ciphertext : Int)) :
    (encrypt K s message).2 =
      Outcome.ret ByteSlice.nil (some (Error.mk "Encrypt: response corrupted in-transit")) := by
  have hne : int64 (crc32c resp.Ciphertext) ≠ reported.Value := by
    rw [int64_crc32c]; exact fun h => hdiff h.symm
  rw [encrypt_of_mismatch K s s1 message resp reported hcall hflag hreported hne]
  rfl

/-- Witness of C4: the service reports 7 for bytes whose CRC-32C is
`0xf1dc778e`. -/
theorem encrypt_checksum_mismatch_response_corrupted_witness :
    (encrypt (sampleKMS (some ⟨7⟩) none) () (ByteSlice.mk [1, 2, 3])).2 =
      Outcome.ret ByteSlice.nil (some (Error.mk "Encrypt: response corrupted in-transit")) :=
  encrypt_checksum_mismatch_response_corrupted (sampleKMS (some ⟨7⟩) none) () ()
    (ByteSlice.mk [1, 2, 3]) (encryptResponseWith true (some ⟨7⟩)) ⟨7⟩ rfl rfl rfl
    (by
      show (7 : Int) ≠ (crc32c sampleBytes : Int)
      rw [crc32c_sampleBytes]; decide)

/-- Corrects C2 (counterexample): the service answers with the verified flag
set and no ciphertext checksum.  This is not the case in which the claim lets
`encrypt` succeed, yet `encrypt` does not return nil bytes with an error: it
does not return at all, the read of the checksum value panics. -/
theorem encrypt_absent_checksum_counterexample :
    (sampleKMS none none).Encrypt () (encryptRequestOf (ByteSlice.mk [1, 2, 3])) =
      ((), Except.ok (encryptResponseWith true none)) ∧
    (encrypt (sampleKMS none none) () (ByteSlice.mk [1, 2, 3])).2 =
      Outcome.panic nilDereference ∧
    ¬ ∃ e, (encrypt (sampleKMS none none) () (ByteSlice.mk [1, 2, 3])).2 =
      Outcome.ret ByteSlice.nil (some e) := by
  refine ⟨rfl, ?_, ?_⟩
  · rw [encrypt_of_absent (sampleKMS none none) () () _ (encryptResponseWith true none)
      rfl rfl rfl]
  · rw [encrypt_of_absent (sampleKMS none none) () () _ (encryptResponseWith true none)
      rfl rfl rfl]
    rintro ⟨e, he⟩
    cases he

/-- C2, amended: for every plaintext and every outcome of the one remote
`Encrypt` call, `encrypt` returns bytes with a nil error if and only if the
call did not fail, the verified flag is true and the reported checksum value
is the CRC-32C of the returned ciphertext; the bytes are then the response's
ciphertext; an error is always returned with nil bytes; in every other case
but that of a missing checksum wrapper under a true flag `encrypt` returns nil
bytes and a non-nil error; a failed call is reported as it is, after exactly
one call with the request of `encryptRequestOf`. -/
theorem encrypt_succeeds_exactly_when_verified {κ : Type} (K : KMSClient κ) (s : κ)
    (log : List Call) (message : ByteSlice) :
    ((∃ b, (encrypt K s message).2 = Outcome.ret b none) ↔
      ∃ resp reported, (K.Encrypt s (encryptRequestOf message)).2 = Except.ok resp ∧
        resp.VerifiedPlaintextCrc32C = true ∧ resp.CiphertextCrc32C = some reported ∧
        reported.Value = (crc32c resp.Ciphertext : Int)) ∧
    (∀ b, (encrypt K s message).2 = Outcome.ret b none →
      ∃ resp, (K.Encrypt s (encryptRequestOf message)).2 = Except.ok resp ∧
        b = resp.Ciphertext) ∧
    (∀ b e, (encrypt K s message).2 = Outcome.ret b (some e) → b = ByteSlice.nil) ∧
    ((¬ ∃ resp, (K.Encrypt s (encryptRequestOf message)).2 = Except.ok resp ∧
          resp.VerifiedPlaintextCrc32C = true ∧ resp.CiphertextCrc32C = none) →
      (¬ ∃ resp reported, (K.Encrypt s (encryptRequestOf message)).2 = Except.ok resp ∧
          resp.VerifiedPlaintextCrc32C = true ∧ resp.CiphertextCrc32C = some reported ∧
          reported.Value = (crc32c resp.Ciphertext : Int)) →
      ∃ e, (encrypt K s message).2 = Outcome.ret ByteSlice.nil (some e)) ∧
    (∀ err, (K.Encrypt s (encryptRequestOf message)).2 = Except.error err →
      (encrypt K s message).2 = Outcome.ret ByteSlice.nil
        (some (Error.mk ("failed to encrypt: " ++ err.message ++ "\n")))) ∧
    (encrypt K s message).1 = (K.Encrypt s (encryptRequestOf message)).1 ∧
    (encrypt (recording K) (s, log) message).1.2 =
      log ++ [Call.encrypt (encryptRequestOf message)] := by
  refine ⟨?_, ?_, ?_, ?_, ?_, ?_, recording_encrypt_log K s log message⟩ <;>
  rcases encrypt_cases K s message with
    ⟨s1, err, hr, h⟩ | ⟨s1, resp, hr, hf, h⟩ | ⟨s1, resp, hr, hf, hw, h⟩ |
    ⟨s1, resp, w, hr, hf, hw, hne, h⟩ | ⟨s1, resp, w, hr, hf, hw, heq, h⟩ <;>
  first
    | (simp [h, hr]; done)
    | (simp [h, hr, hf]; done)
    | (simp [h, hr, hf, hw]; done)
    | simp [h, hr, hf, hw, hne]
    | simp [h, hr, hf, hw, heq]

/-- Witness of C2, amended: the service reports the right checksum with the
flag set, and `encrypt` returns bytes with a nil error; the call fails, and
`encrypt` returns nil bytes with the error of the failure. -/
theorem encrypt_succeeds_exactly_when_verified_witness :
    (∃ b, (encrypt (sampleKMS (some ⟨0xf1dc778e⟩) none) () (ByteSlice.mk [1, 2, 3])).2 =
      Outcome.ret b none) ∧
    (encrypt (cannedKMS (Except.error (Error.mk "rpc error: code = Unavailable"))
        (Except.ok (decryptResponseWith none))) () (ByteSlice.mk [1, 2, 3])).2 =
      Outcome.ret ByteSlice.nil
        (some (Error.mk "failed to encrypt: rpc error: code = Unavailable\n")) :=
  ⟨(encrypt_succeeds_exactly_when_verified (sampleKMS (some ⟨0xf1dc778e⟩) none) () []
      (ByteSlice.mk [1, 2, 3])).1.mpr
      ⟨encryptResponseWith true (some ⟨0xf1dc778e⟩), ⟨0xf1dc778e⟩, rfl, rfl, rfl, by
        show (0xf1dc778e : Int) = (crc32c sampleBytes : Int)
        rw [crc32c_sampleBytes]; rfl⟩,
    (encrypt_succeeds_exactly_when_verified
      (cannedKMS (Except.error (Error.mk "rpc error: code = Unavailable"))
        (Except.ok (decryptResponseWith none))) () [] (ByteSlice.mk [1, 2, 3])).2.2.2.2.1
      (Error.mk "rpc error: code = Unavailable") rfl⟩

/-! ## Claims about `decrypt` -/

/-- Corrects C5 (counterexample): the `Decrypt` call succeeds and the response
carries no plaintext checksum.  No checksum value differs from the recomputed
one, so the claim has `decrypt` return the response's plaintext with a nil
error; `decrypt` returns nothing, the read of the checksum value panics. -/
theorem decrypt_absent_checksum_counterexample :
    (sampleKMS none none).Decrypt () (decryptRequestOf (ByteSlice.mk [9, 9])) =
      ((), Except.ok (decryptResponseWith none)) ∧
    (decrypt (sampleKMS none none) () (ByteSlice.mk [9, 9])).2 =
      Outcome.panic nilDereference ∧
    (decrypt (sampleKMS none none) () (ByteSlice.mk [9, 9])).2 ≠
      Outcome.ret (decryptResponseWith none).Plaintext none := by
  have h := decrypt_of_absent (sampleKMS none none) () () (ByteSlice.mk [9, 9])
    (decryptResponseWith none) rfl rfl
  refine ⟨rfl, ?_, ?_⟩
  · rw [h]
  · rw [h]
    intro he
    cases he

/-- C5, amended: for every ciphertext and every outcome of the remote
`Decrypt` call, `decrypt` returns nil bytes and a non-nil error when the call
failed; when the call succeeded and the response carries a checksum value,
it returns nil bytes and the error "Decrypt: response corrupted in-transit"
if that value differs from the CRC-32C recomputed over the returned plaintext,
and exactly the response's plaintext with a nil error if it is equal; the
result depends on nothing in the response but the plaintext and the checksum
wrapper. -/
theorem decrypt_integrity_rejection {κ : Type} (K : KMSClient κ) (s : κ)
    (ciphertext : ByteSlice) :
    (∀ err, (K.Decrypt s (decryptRequestOf ciphertext)).2 = Except.error err →
      (decrypt K s ciphertext).2 = Outcome.ret ByteSlice.nil
        (some (Error.mk ("failed to decrypt ciphertext: " ++ err.message ++ "\n")))) ∧
    (∀ resp reported, (K.Decrypt s (decryptRequestOf ciphertext)).2 = Except.ok resp →
      resp.PlaintextCrc32C = some reported →
      reported.Value ≠ (crc32c resp.Plaintext : Int) →
      (decrypt K s ciphertext).2 = Outcome.ret ByteSlice.nil
        (some (Error.mk "Decrypt: response corrupted in-transit"))) ∧
    (∀ resp reported, (K.Decrypt s (decryptRequestOf ciphertext)).2 = Except.ok resp →
      resp.PlaintextCrc32C = some reported →
      reported.Value = (crc32c resp.Plaintext : Int) →
      (decrypt K s ciphertext).2 = Outcome.ret resp.Plaintext none) ∧
    (∀ {κ1 : Type} (K1 : KMSClient κ1) (s1 : κ1) (ciphertext1 : ByteSlice) resp resp1,
      (K.Decrypt s (decryptRequestOf ciphertext)).2 = Except.ok resp →
      (K1.Decrypt s1 (decryptRequestOf ciphertext1)).2 = Except.ok resp1 →
      resp.Plaintext = resp1.Plaintext → resp.PlaintextCrc32C = resp1.PlaintextCrc32C →
      (decrypt K s ciphertext).2 = (decrypt K1 s1 ciphertext1).2) ∧
    (decrypt K s ciphertext).1 = (K.Decrypt s (decryptRequestOf ciphertext)).1 := by
  refine ⟨?_, ?_, ?_, ?_, ?_⟩
  · intro err he
    rcases decrypt_cases K s ciphertext with
      ⟨s1, err1, hr, h⟩ | ⟨s1, resp, hr, hw, h⟩ | ⟨s1, resp, w, hr, hw, hne, h⟩ |
      ⟨s1, resp, w, hr, hw, heq, h⟩ <;>
    simp_all
  · intro resp0 reported he hw0 hne0
    rcases decrypt_cases K s ciphertext with
      ⟨s1, err1, hr, h⟩ | ⟨s1, resp, hr, hw, h⟩ | ⟨s1, resp, w, hr, hw, hne, h⟩ |
      ⟨s1, resp, w, hr, hw, heq, h⟩ <;>
    simp_all
  · intro resp0 reported he hw0 heq0
    rcases decrypt_cases K s ciphertext with
      ⟨s1, err1, hr, h⟩ | ⟨s1, resp, hr, hw, h⟩ | ⟨s1, resp, w, hr, hw, hne, h⟩ |
      ⟨s1, resp, w, hr, hw, heq, h⟩ <;>
    simp_all
  · intro κ1 K1 t1 c1 resp0 resp1 he he1 hp hc
    rcases decrypt_cases K s ciphertext with
      ⟨s1, err1, hr, h⟩ | ⟨s1, resp, hr, hw, h⟩ | ⟨s1, resp, w, hr, hw, hne, h⟩ |
      ⟨s1, resp, w, hr, hw, heq, h⟩ <;>
    rcases decrypt_cases K1 t1 c1 with
      ⟨s2, err2, hr2, h2⟩ | ⟨s2, resp2, hr2, hw2, h2⟩ | ⟨s2, resp2, w2, hr2, hw2, hne2, h2⟩ |
      ⟨s2, resp2, w2, hr2, hw2, heq2, h2⟩ <;>
    simp_all
  · rcases decrypt_cases K s ciphertext with
      ⟨s1, err1, hr, h⟩ | ⟨s1, resp, hr, hw, h⟩ | ⟨s1, resp, w, hr, hw, hne, h⟩ |
      ⟨s1, resp, w, hr, hw, heq, h⟩ <;>
    simp_all

/-- Witness of C5, amended: the service reports 7 for bytes whose CRC-32C is
`0xf1dc778e`, and `decrypt` rejects the response; it reports the right value,
and `decrypt` returns the plaintext; the call fails, and `decrypt` returns the
error of the failure. -/
theorem decrypt_integrity_rejection_witness :
    (decrypt (sampleKMS none (some ⟨7⟩)) () (ByteSlice.mk [9, 9])).2 =
      Outcome.ret ByteSlice.nil (some (Error.mk "Decrypt: response corrupted in-transit")) ∧
    (decrypt (sampleKMS none (some ⟨0xf1dc778e⟩)) () (ByteSlice.mk [9, 9])).2 =
      Outcome.ret sampleBytes none ∧
    (decrypt (cannedKMS (Except.ok (encryptResponseWith true none))
        (Except.error (Error.mk "rpc error: code = Unavailable"))) () (ByteSlice.mk [9, 9])).2 =
      Outcome.ret ByteSlice.nil
        (some (Error.mk "failed to decrypt ciphertext: rpc error: code = Unavailable\n")) :=
  ⟨(decrypt_integrity_rejection (sampleKMS none (some ⟨7⟩)) () (ByteSlice.mk [9, 9])).2.1
      (decryptResponseWith (some ⟨7⟩)) ⟨7⟩ rfl rfl (by
        show (7 : Int) ≠ (crc32c sampleBytes : Int)
        rw [crc32c_sampleBytes]; decide),
    (decrypt_integrity_rejection (sampleKMS none (some ⟨0xf1dc778e⟩)) ()
      (ByteSlice.mk [9, 9])).2.2.1 (decryptResponseWith (some ⟨0xf1dc778e⟩)) ⟨0xf1dc778e⟩
      rfl rfl (by
        show (0xf1dc778e : Int) = (crc32c sampleBytes : Int)
        rw [crc32c_sampleBytes]; rfl),
    (decrypt_integrity_rejection
      (cannedKMS (Except.ok (encryptResponseWith true none))
        (Except.error (Error.mk "rpc error: code = Unavailable"))) ()
      (ByteSlice.mk [9, 9])).1 (Error.mk "rpc error: code = Unavailable") rfl⟩

/-! ## The requests, the range of the checksum, missing fields -/

theorem shiftRight_xor (x y k : Nat) : (x ^^^ y) >>> k = (x >>> k) ^^^ (y >>> k) := by
  apply Nat.eq_of_testBit_eq
  intro i
  simp

theorem crcShift_xor (poly x y : Nat) :
    crcShift poly (x ^^^ y) = crcShift poly x ^^^ crcShift poly y := by
  unfold crcShift
  simp only [Nat.and_one_is_mod, shiftRight_xor, Nat.xor_mod_two_eq_one]
  by_cases hx : x % 2 = 1 <;> by_cases hy : y % 2 = 1 <;> simp only [hx, hy, if_true,
    if_false, iff_self, not_true_eq_false, true_iff, iff_true, not_false_eq_true,
    false_iff, iff_false] <;>
  · apply Nat.eq_of_testBit_eq
    intro i
    simp only [Nat.testBit_xor]
    cases Nat.testBit (x >>> 1) i <;> cases Nat.testBit (y >>> 1) i <;>
      cases Nat.testBit poly i <;> rfl

theorem foldl_crcShift_xor (poly : Nat) (l : List Nat) :
    ∀ x y : Nat, l.foldl (fun c _ => crcShift poly c) (x ^^^ y) =
      l.foldl (fun c _ => crcShift poly c) x ^^^ l.foldl (fun c _ => crcShift poly c) y := by
  induction l with
  | nil => intro x y; rfl
  | cons _ rest ih =>
    intro x y
    simp only [List.foldl_cons, crcShift_xor, ih]

theorem crcShift_shiftLeft_succ (poly h n : Nat) :
    crcShift poly (h <<< (n + 1)) = h <<< n := by
  have e : h <<< (n + 1) = 2 * (h <<< n) := Nat.shiftLeft_succ h n
  unfold crcShift
  rw [Nat.and_one_is_mod, e]
  have h1 : (2 * (h <<< n)) % 2 = 0 := by omega
  have h2 : (2 * (h <<< n)) >>> 1 = h <<< n := by
    rw [Nat.shiftRight_eq_div_pow]; omega
  simp [h1, h2]

theorem foldl_crcShift_shiftLeft (poly h : Nat) (l : List Nat) :
    l.foldl (fun c _ => crcShift poly c) (h <<< l.length) = h := by
  induction l with
  | nil => simp
  | cons _ rest ih =>
    simp only [List.foldl_cons, List.length_cons, crcShift_shiftLeft_succ, ih]

theorem split_low_byte (crc : Nat) : crc = ((crc >>> 8) <<< 8) ^^^ (crc % 256) := by
  apply Nat.eq_of_testBit_eq
  intro i
  have e : (256 : Nat) = 2 ^ 8 := by norm_num
  rw [e]
  simp only [Nat.testBit_xor, Nat.testBit_shiftLeft, Nat.testBit_shiftRight,
    Nat.testBit_mod_two_pow]
  by_cases h : i < 8
  · have : ¬ (8 ≤ i) := by omega
    simp [h, this]
  · have h8 : 8 ≤ i := by omega
    have e2 : 8 + (i - 8) = i := by omega
    simp [h, h8, e2]

theorem updateByte_eq_rounds (poly crc : Nat) (v : Byte) :
    updateByte (MakeTable poly) crc v =
      (List.range 8).foldl (fun c _ => crcShift poly c) (crc ^^^ v.val) := by
  unfold updateByte MakeTable simplePopulateEntry tableIndex
  simp only
  have hs : crc ^^^ v.val = ((crc >>> 8) <<< 8) ^^^ ((crc % 256) ^^^ v.val) := by
    conv_lhs => rw [split_low_byte crc]
    rw [Nat.xor_assoc]
  have h8 : (List.range 8).foldl (fun c _ => crcShift poly c) ((crc >>> 8) <<< 8) =
      crc >>> 8 := by
    have := foldl_crcShift_shiftLeft poly (crc >>> 8) (List.range 8)
    simpa using this
  calc (List.range 8).foldl (fun c _ => crcShift poly c) ((crc % 256) ^^^ v.val)
        ^^^ (crc >>> 8)
      = (List.range 8).foldl (fun c _ => crcShift poly c) ((crc >>> 8) <<< 8) ^^^
          (List.range 8).foldl (fun c _ => crcShift poly c) ((crc % 256) ^^^ v.val) := by
        rw [h8, Nat.xor_comm]
    _ = (List.range 8).foldl (fun c _ => crcShift poly c)
          (((crc >>> 8) <<< 8) ^^^ ((crc % 256) ^^^ v.val)) := by
        exact (foldl_crcShift_xor poly (List.range 8) _ _).symm
    _ = (List.range 8).foldl (fun c _ => crcShift poly c) (crc ^^^ v.val) := by
        rw [← hs]

theorem crcShift_Castagnoli (crc : Nat) : crcShift Castagnoli crc = referenceBit crc := by
  unfold crcShift referenceBit Castagnoli
  rw [Nat.and_one_is_mod, Nat.shiftRight_eq_div_pow]

theorem updateByte_Castagnoli (crc : Nat) (v : Byte) :
    updateByte (MakeTable Castagnoli) crc v = referenceByte crc v := by
  rw [updateByte_eq_rounds]
  unfold referenceByte
  simp only [List.range, List.range.loop, List.foldl_cons, List.foldl_nil,
    crcShift_Castagnoli]

theorem Checksum_eq_reference (data : List Byte) :
    Checksum data (MakeTable Castagnoli) = referenceCRC32C data := by
  unfold Checksum Update referenceCRC32C not32
  have hf : updateByte (MakeTable Castagnoli) = referenceByte := by
    funext crc v; exact updateByte_Castagnoli crc v
  rw [hf]
  rfl

set_option maxRecDepth 1000000 in
theorem Checksum_check_values :
    Checksum [0x31, 0x32, 0x33, 0x34, 0x35, 0x36, 0x37, 0x38, 0x39] (MakeTable Castagnoli) =
      0xe3069283 ∧
    Checksum (List.replicate 32 0) (MakeTable Castagnoli) = 0x8a9136aa ∧
    Checksum (List.replicate 32 0xff) (MakeTable Castagnoli) = 0x62a8ab43 ∧
    Checksum [0, 1, 2, 3, 4, 5, 6, 7, 8, 9, 10, 11, 12, 13, 14, 15, 16, 17, 18, 19, 20,
      21, 22, 23, 24, 25, 26, 27, 28, 29, 30, 31] (MakeTable Castagnoli) = 0x46dd794e ∧
    Checksum [31, 30, 29, 28, 27, 26, 25, 24, 23, 22, 21, 20, 19, 18, 17, 16, 15, 14, 13,
      12, 11, 10, 9, 8, 7, 6, 5, 4, 3, 2, 1, 0] (MakeTable Castagnoli) = 0x113fdb5c := by
  decide

/-- C8: for every payload, behaviour of the service and calls made before, the
one request `encrypt` sends carries the payload unchanged as plaintext, the one
request `decrypt` sends carries the payload unchanged as ciphertext, and each
carries as checksum the value `crc32.Checksum` gives for the bytes of the
payload with the Castagnoli table.  That value is the CRC-32C of the bytes by
the bit-by-bit reference algorithm, it is a non-negative integer below
`2 ^ 32` (the 32-bit checksum widened without sign), and it is the published
check value on the ASCII digits 1 to 9 and on the four 32-byte test patterns
of RFC 3720.  Both requests name the same fixed key. -/
theorem preflight_checksum_attached {κ : Type} (K : KMSClient κ) (s : κ)
    (log : List Call) (payload : ByteSlice) :
    (∃ sent : EncryptRequest,
      (encrypt (recording K) (s, log) payload).1.2 = log ++ [Call.encrypt sent] ∧
      sent.Plaintext = payload ∧
      sent.PlaintextCrc32C =
        some ⟨(Checksum payload.toList (MakeTable Castagnoli) : Int)⟩ ∧
      sent.Name =
        "projects/projectId/locations/global/keyRings/your-ring/cryptoKeys/your-key") ∧
    (∃ sent : DecryptRequest,
      (decrypt (recording K) (s, log) payload).1.2 = log ++ [Call.decrypt sent] ∧
      sent.Ciphertext = payload ∧
      sent.CiphertextCrc32C =
        some ⟨(Checksum payload.toList (MakeTable Castagnoli) : Int)⟩ ∧
      sent.Name =
        "projects/projectId/locations/global/keyRings/your-ring/cryptoKeys/your-key") ∧
    Checksum payload.toList (MakeTable Castagnoli) = referenceCRC32C payload.toList ∧
    (0 : Int) ≤ (Checksum payload.toList (MakeTable Castagnoli) : Int) ∧
    (Checksum payload.toList (MakeTable Castagnoli) : Int) < 2 ^ 32 ∧
    Checksum [0x31, 0x32, 0x33, 0x34, 0x35, 0x36, 0x37, 0x38, 0x39] (MakeTable Castagnoli) =
      0xe3069283 ∧
    Checksum (List.replicate 32 0) (MakeTable Castagnoli) = 0x8a9136aa ∧
    Checksum (List.replicate 32 0xff) (MakeTable Castagnoli) = 0x62a8ab43 ∧
    Checksum [0, 1, 2, 3, 4, 5, 6, 7, 8, 9, 10, 11, 12, 13, 14, 15, 16, 17, 18, 19, 20,
      21, 22, 23, 24, 25, 26, 27, 28, 29, 30, 31] (MakeTable Castagnoli) = 0x46dd794e ∧
    Checksum [31, 30, 29, 28, 27, 26, 25, 24, 23, 22, 21, 20, 19, 18, 17, 16, 15, 14, 13,
      12, 11, 10, 9, 8, 7, 6, 5, 4, 3, 2, 1, 0] (MakeTable Castagnoli) = 0x113fdb5c := by
  have hc : crc32c payload = Checksum payload.toList (MakeTable Castagnoli) := rfl
  refine ⟨⟨encryptRequestOf payload, recording_encrypt_log K s log payload, rfl, ?_, rfl⟩,
    ⟨decryptRequestOf payload, recording_decrypt_log K s log payload, rfl, ?_, rfl⟩,
    Checksum_eq_reference _, Int.ofNat_nonneg _, ?_, Checksum_check_values⟩
  · simp only [encryptRequestOf]
    rw [int64_crc32c, hc]
  · simp only [decryptRequestOf]
    rw [int64_crc32c, hc]
  · rw [← hc]
    exact_mod_cast crc32c_lt payload

/-- C9: a reported checksum value that is negative or at least `2 ^ 32` is
never accepted, whatever bytes come with it: `encrypt` (the verified flag
being true) and `decrypt` return nil bytes and their "response corrupted
in-transit" error, and the value differs from the widened checksum of every
byte slice, also of one whose checksum it equals modulo `2 ^ 32`. -/
theorem out_of_range_checksum_rejected (value : Int)
    (hrange : value < 0 ∨ 2 ^ 32 ≤ value) :
    (∀ {κ : Type} (K : KMSClient κ) (s s1 : κ) (message : ByteSlice)
        (resp : EncryptResponse),
      K.Encrypt s (encryptRequestOf message) = (s1, Except.ok resp) →
      resp.VerifiedPlaintextCrc32C = true →
      resp.CiphertextCrc32C = some ⟨value⟩ →
      (encrypt K s message).2 = Outcome.ret ByteSlice.nil
        (some (Error.mk "Encrypt: response corrupted in-transit"))) ∧
    (∀ {κ : Type} (K : KMSClient κ) (s s1 : κ) (ciphertext : ByteSlice)
        (resp : DecryptResponse),
      K.Decrypt s (decryptRequestOf ciphertext) = (s1, Except.ok resp) →
      resp.PlaintextCrc32C = some ⟨value⟩ →
      (decrypt K s ciphertext).2 = Outcome.ret ByteSlice.nil
        (some (Error.mk "Decrypt: response corrupted in-transit"))) ∧
    (∀ data : ByteSlice, value % 2 ^ 32 = (crc32c data : Int) % 2 ^ 32 →
      int64 (crc32c data) ≠ value) := by
  have hne : ∀ data : ByteSlice, int64 (crc32c data) ≠ value := by
    intro data h
    have h0 := int64_crc32c_nonneg data
    have h1 := int64_crc32c_lt data
    rw [h] at h0 h1
    rcases hrange with hneg | hbig
    · exact absurd h0 (not_le.mpr hneg)
    · exact absurd h1 (not_lt.mpr hbig)
  refine ⟨?_, ?_, fun data _ => hne data⟩
  · intro κ K s s1 message resp hcall hflag hrep
    rw [encrypt_of_mismatch K s s1 message resp ⟨value⟩ hcall hflag hrep (hne _)]
    rfl
  · intro κ K s s1 ciphertext resp hcall hrep
    rw [decrypt_of_mismatch K s s1 ciphertext resp ⟨value⟩ hcall hrep (hne _)]
    rfl

/-- Witness of C9: the service reports the true checksum of the bytes it
returns plus `2 ^ 32`, a value equal to the checksum modulo `2 ^ 32`; both
functions reject it. -/
theorem out_of_range_checksum_rejected_witness :
    (0xf1dc778e + 2 ^ 32 : Int) % 2 ^ 32 = (crc32c sampleBytes : Int) % 2 ^ 32 ∧
    (encrypt (sampleKMS (some ⟨0xf1dc778e + 2 ^ 32⟩) (some ⟨0xf1dc778e + 2 ^ 32⟩)) ()
        (ByteSlice.mk [1, 2, 3])).2 =
      Outcome.ret ByteSlice.nil (some (Error.mk "Encrypt: response corrupted in-transit")) ∧
    (decrypt (sampleKMS (some ⟨0xf1dc778e + 2 ^ 32⟩) (some ⟨0xf1dc778e + 2 ^ 32⟩)) ()
        (ByteSlice.mk [1, 2, 3])).2 =
      Outcome.ret ByteSlice.nil (some (Error.mk "Decrypt: response corrupted in-transit")) :=
  ⟨by rw [crc32c_sampleBytes]; decide,
    (out_of_range_checksum_rejected (0xf1dc778e + 2 ^ 32) (Or.inr (by decide))).1
      (sampleKMS (some ⟨0xf1dc778e + 2 ^ 32⟩) (some ⟨0xf1dc778e + 2 ^ 32⟩)) () ()
      (ByteSlice.mk [1, 2, 3]) (encryptResponseWith true (some ⟨0xf1dc778e + 2 ^ 32⟩))
      rfl rfl rfl,
    (out_of_range_checksum_rejected (0xf1dc778e + 2 ^ 32) (Or.inr (by decide))).2.1
      (sampleKMS (some ⟨0xf1dc778e + 2 ^ 32⟩) (some ⟨0xf1dc778e + 2 ^ 32⟩)) () ()
      (ByteSlice.mk [1, 2, 3]) (decryptResponseWith (some ⟨0xf1dc778e + 2 ^ 32⟩))
      rfl rfl⟩

/-- Corrects C10 (counterexample): on a successful response without the
reported-checksum field, the verified flag being true, `encrypt` returns
neither bytes nor an error, and on a successful response without the field
`decrypt` returns neither: both panic on the read of the checksum value. -/
theorem absent_checksum_faults_counterexample :
    (encrypt (sampleKMS none none) () (ByteSlice.mk [0x7b, 0x7d])).2 =
      Outcome.panic nilDereference ∧
    (decrypt (sampleKMS none none) () sampleBytes).2 = Outcome.panic nilDereference ∧
    (∀ b e, (encrypt (sampleKMS none none) () (ByteSlice.mk [0x7b, 0x7d])).2 ≠
      Outcome.ret b e) ∧
    (∀ b e, (decrypt (sampleKMS none none) () sampleBytes).2 ≠ Outcome.ret b e) := by
  have he := encrypt_of_absent (sampleKMS none none) () () (ByteSlice.mk [0x7b, 0x7d])
    (encryptResponseWith true none) rfl rfl rfl
  have hd := decrypt_of_absent (sampleKMS none none) () () sampleBytes
    (decryptResponseWith none) rfl rfl
  refine ⟨by rw [he], by rw [hd], ?_, ?_⟩
  · intro b e h
    rw [he] at h
    cases h
  · intro b e h
    rw [hd] at h
    cases h

/-- C10, amended: on every successful response that carries the
reported-checksum field `encrypt` and `decrypt` return bytes (with a nil
error) or an error, and `encrypt` returns an error on every response whose
verified flag is false, with or without the field, which it does not read
then. -/
theorem returns_when_checksum_present {κ : Type} (K : KMSClient κ) (s s1 : κ)
    (payload : ByteSlice) :
    (∀ resp : EncryptResponse,
      K.Encrypt s (encryptRequestOf payload) = (s1, Except.ok resp) →
      resp.VerifiedPlaintextCrc32C = false ∨ resp.CiphertextCrc32C ≠ none →
      (∃ b, (encrypt K s payload).2 = Outcome.ret b none) ∨
      (∃ e, (encrypt K s payload).2 = Outcome.ret ByteSlice.nil (some e))) ∧
    (∀ resp : DecryptResponse,
      K.Decrypt s (decryptRequestOf payload) = (s1, Except.ok resp) →
      resp.PlaintextCrc32C ≠ none →
      (∃ b, (decrypt K s payload).2 = Outcome.ret b none) ∨
      (∃ e, (decrypt K s payload).2 = Outcome.ret ByteSlice.nil (some e))) ∧
    (∀ resp : EncryptResponse,
      K.Encrypt s (encryptRequestOf payload) = (s1, Except.ok resp) →
      resp.VerifiedPlaintextCrc32C = false →
      (encrypt K s payload).2 = Outcome.ret ByteSlice.nil
        (some (Error.mk "Encrypt: request corrupted in-transit"))) := by
  refine ⟨?_, ?_, ?_⟩
  · intro resp0 hcall hpresent
    rcases encrypt_cases K s payload with
      ⟨t, err, hr, h⟩ | ⟨t, resp, hr, hf, h⟩ | ⟨t, resp, hr, hf, hw, h⟩ |
      ⟨t, resp, w, hr, hf, hw, hne, h⟩ | ⟨t, resp, w, hr, hf, hw, heq, h⟩ <;>
    simp_all
  · intro resp0 hcall hpresent
    rcases decrypt_cases K s payload with
      ⟨t, err1, hr, h⟩ | ⟨t, resp, hr, hw, h⟩ | ⟨t, resp, w, hr, hw, hne, h⟩ |
      ⟨t, resp, w, hr, hw, heq, h⟩ <;>
    simp_all
  · intro resp hcall hflag
    rw [encrypt_of_unverified K s s1 payload resp hcall hflag]
    rfl

/-- Witness of C10, amended: a response with the field present and right for
each function, and an `Encrypt` response with the flag false and no field. -/
theorem returns_when_checksum_present_witness :
    ((∃ b, (encrypt (sampleKMS (some ⟨0xf1dc778e⟩) (some ⟨0xf1dc778e⟩)) ()
        (ByteSlice.mk [1])).2 = Outcome.ret b none) ∨
      (∃ e, (encrypt (sampleKMS (some ⟨0xf1dc778e⟩) (some ⟨0xf1dc778e⟩)) ()
        (ByteSlice.mk [1])).2 = Outcome.ret ByteSlice.nil (some e))) ∧
    ((∃ b, (decrypt (sampleKMS (some ⟨0xf1dc778e⟩) (some ⟨0xf1dc778e⟩)) ()
        (ByteSlice.mk [1])).2 = Outcome.ret b none) ∨
      (∃ e, (decrypt (sampleKMS (some ⟨0xf1dc778e⟩) (some ⟨0xf1dc778e⟩)) ()
        (ByteSlice.mk [1])).2 = Outcome.ret ByteSlice.nil (some e))) ∧
    ((∃ b, (encrypt (cannedKMS (Except.ok (encryptResponseWith false none))
        (Except.ok (decryptResponseWith none))) () (ByteSlice.mk [1])).2 =
          Outcome.ret b none) ∨
      (∃ e, (encrypt (cannedKMS (Except.ok (encryptResponseWith false none))
        (Except.ok (decryptResponseWith none))) () (ByteSlice.mk [1])).2 =
          Outcome.ret ByteSlice.nil (some e))) :=
  ⟨(returns_when_checksum_present (sampleKMS (some ⟨0xf1dc778e⟩) (some ⟨0xf1dc778e⟩))
      () () (ByteSlice.mk [1])).1 (encryptResponseWith true (some ⟨0xf1dc778e⟩)) rfl
      (Or.inr (by simp [encryptResponseWith])),
    (returns_when_checksum_present (sampleKMS (some ⟨0xf1dc778e⟩) (some ⟨0xf1dc778e⟩))
      () () (ByteSlice.mk [1])).2.1 (decryptResponseWith (some ⟨0xf1dc778e⟩)) rfl
      (by simp [decryptResponseWith]),
    (returns_when_checksum_present (cannedKMS (Except.ok (encryptResponseWith false none))
      (Except.ok (decryptResponseWith none))) () () (ByteSlice.mk [1])).1
      (encryptResponseWith false none) rfl (Or.inl rfl)⟩

/-! ## The store -/

theorem lookup_upsert_self (s : MapStore) (k : Key) (t : Token) :
    MapStore.lookup (MapStore.upsert s k t) k = some t := by
  induction s with
  | nil => simp [MapStore.upsert, MapStore.lookup]
  | cons e rest ih =>
    rcases e with ⟨k1, t1⟩
    by_cases h : k1 = k
    · simp [MapStore.upsert, MapStore.lookup, h]
    · simp [MapStore.upsert, MapStore.lookup, h, ih]

theorem generateKey_injective (a b : String) (h : generateKey a = generateKey b) : a = b := by
  have := congrArg Key.Name h
  simpa [generateKey, NameKey] using this

theorem load_of_found {δ : Type} (D : DatastoreClient δ) (s s1 : δ) (id : String)
    (t : Token) (h : D.Get s (generateKey id) Token.zero = (s1, t, none)) :
    load D s id = (s1, t, none) := by
  simp only [load, h]

theorem load_of_missing {δ : Type} (D : DatastoreClient δ) (s s1 : δ) (id : String)
    (dst : Token)
    (h : D.Get s (generateKey id) Token.zero = (s1, dst, some Error.ErrNoSuchEntity)) :
    load D s id = (s1, Token.zero, none) := by
  simp [load, h]

theorem load_of_failure {δ : Type} (D : DatastoreClient δ) (s s1 : δ) (id : String)
    (dst : Token) (err : Error) (hne : err ≠ Error.ErrNoSuchEntity)
    (h : D.Get s (generateKey id) Token.zero = (s1, dst, some err)) :
    load D s id = (s1, Token.zero, some err) := by
  simp [load, h, hne]

theorem mapStore_get_after_put (s : MapStore) (k : Key) (t dst : Token) :
    mapStore.Get (mapStore.Put s k t).1 k dst = ((mapStore.Put s k t).1, t, none) := by
  simp [mapStore, lookup_upsert_self]

/-- C7: over the map store, for every state and every Token with a non-empty
Id, `save` does not fail and `load` of the Token's Id in the state `save`
leaves returns the Token itself, equal in every field, with a nil error.
`save` puts under `generateKey t.Id` on every client and `load` returns what
`Get` finds under `generateKey id` on every client; that key has kind "Token",
namespace "stage" and the id as name, and distinct ids give distinct keys. -/
theorem save_then_load_round_trip (s : MapStore) (t : Token) (hid : t.Id ≠ "") :
    (save mapStore s t).2 = none ∧
    load mapStore (save mapStore s t).1 t.Id = ((save mapStore s t).1, t, none) ∧
    MapStore.lookup (save mapStore s t).1 (generateKey t.Id) = some t ∧
    (∀ {δ : Type} (D : DatastoreClient δ) (d : δ),
      save D d t = D.Put d (generateKey t.Id) t) ∧
    (∀ {δ : Type} (D : DatastoreClient δ) (d d1 : δ) (id : String) (found : Token),
      D.Get d (generateKey id) Token.zero = (d1, found, none) →
      load D d id = (d1, found, none)) ∧
    generateKey t.Id = { Kind := "Token", ID := 0, Name := t.Id, Namespace := "stage" } ∧
    (generateKey t.Id).Name ≠ "" ∧
    (∀ a b : String, a ≠ b → generateKey a ≠ generateKey b) := by
  refine ⟨rfl, ?_, ?_, fun _ _ => rfl, ?_, rfl, hid, ?_⟩
  · exact load_of_found mapStore _ _ t.Id t (mapStore_get_after_put s _ t Token.zero)
  · exact lookup_upsert_self s _ t
  · intro δ D d d1 id found h
    exact load_of_found D d d1 id found h
  · intro a b hab h
    exact hab (generateKey_injective a b h)

/-- Witness of C7: a Token saved into a store that already holds another one
under the same key. -/
theorem save_then_load_round_trip_witness :
    load mapStore
      (save mapStore [(generateKey "t-1", Token.zero)]
        ⟨"t-1", "m1", "p1", "", "", sampleBytes, 42⟩).1 "t-1" =
      ([(generateKey "t-1", ⟨"t-1", "m1", "p1", "", "", sampleBytes, 42⟩)],
        ⟨"t-1", "m1", "p1", "", "", sampleBytes, 42⟩, none) :=
  (save_then_load_round_trip [(generateKey "t-1", Token.zero)]
    ⟨"t-1", "m1", "p1", "", "", sampleBytes, 42⟩ (by decide)).2.1

/-- Corrects C6 (counterexample): the store holds one record, the zero-valued
Token, under the key of id "a", and nothing under the key of id "b".  `load`
returns the same result, the zero-valued Token with a nil error, for the
present record and for the missing one. -/
theorem load_not_found_indistinguishable_counterexample :
    MapStore.lookup [(generateKey "a", Token.zero)] (generateKey "a") = some Token.zero ∧
    MapStore.lookup [(generateKey "a", Token.zero)] (generateKey "b") = none ∧
    load mapStore [(generateKey "a", Token.zero)] "a" =
      load mapStore [(generateKey "a", Token.zero)] "b" := by
  decide

/-- C6, amended: for every id with no record in the store (`Get` reports
`ErrNoSuchEntity`) `load` returns the zero-valued Token with a nil error, not
an error; this result differs from the result of loading a stored Token
exactly when the stored Token is not the zero value, which holds for every
Token saved with a non-empty Id into the map store; for every other backend
failure `load` returns the zero-valued Token and that non-nil error. -/
theorem load_not_found_is_zero_token {δ : Type} (D : DatastoreClient δ) (s s1 : δ)
    (id : String) (dst : Token) :
    (D.Get s (generateKey id) Token.zero = (s1, dst, some Error.ErrNoSuchEntity) →
      load D s id = (s1, Token.zero, none)) ∧
    (∀ err, err ≠ Error.ErrNoSuchEntity →
      D.Get s (generateKey id) Token.zero = (s1, dst, some err) →
      load D s id = (s1, Token.zero, some err) ∧ (load D s id).2.2 ≠ none) ∧
    (D.Get s (generateKey id) Token.zero = (s1, dst, none) →
      ((load D s id).2 ≠ (Token.zero, none) ↔ dst ≠ Token.zero)) ∧
    (∀ (m : MapStore) (t : Token), t.Id ≠ "" →
      (load mapStore (save mapStore m t).1 t.Id).2 ≠ (Token.zero, none)) := by
  refine ⟨fun h => load_of_missing D s s1 id dst h, ?_, ?_, ?_⟩
  · intro err hne h
    rw [load_of_failure D s s1 id dst err hne h]
    exact ⟨rfl, by simp⟩
  · intro h
    rw [load_of_found D s s1 id dst h]
    simp
  · intro m t hid
    have hl : load mapStore (save mapStore m t).1 t.Id = ((save mapStore m t).1, t, none) :=
      load_of_found mapStore _ _ t.Id t (mapStore_get_after_put m _ t Token.zero)
    rw [hl]
    intro h
    have h1 : t = Token.zero := congrArg Prod.fst h
    exact hid (by rw [h1]; rfl)

/-- Witness of C6, amended: nothing is stored under the key of "b"; the
backend fails with another error; a Token with an Id is stored. -/
theorem load_not_found_is_zero_token_witness :
    load mapStore [(generateKey "a", Token.zero)] "b" =
      ([(generateKey "a", Token.zero)], Token.zero, none) ∧
    load (cannedStore Token.zero (some (Error.mk "rpc error: code = Unavailable"))) () "b" =
      ((), Token.zero, some (Error.mk "rpc error: code = Unavailable")) ∧
    (load mapStore (save mapStore [] ⟨"t-1", "m1", "p1", "", "", sampleBytes, 42⟩).1
      "t-1").2 ≠ (Token.zero, none) :=
  ⟨(load_not_found_is_zero_token mapStore [(generateKey "a", Token.zero)]
      [(generateKey "a", Token.zero)] "b" Token.zero).1 (by decide),
    ((load_not_found_is_zero_token
      (cannedStore Token.zero (some (Error.mk "rpc error: code = Unavailable"))) () () "b"
      Token.zero).2.1 (Error.mk "rpc error: code = Unavailable") (by decide) rfl).1,
    (load_not_found_is_zero_token mapStore [] [] "b" Token.zero).2.2.2 []
      ⟨"t-1", "m1", "p1", "", "", sampleBytes, 42⟩ (by decide)⟩

/-! ## The round trip of `main` -/

theorem flipByte_flipByte (b : Byte) : flipByte (flipByte b) = b := by
  apply Fin.ext
  simp [flipByte, Nat.xor_assoc]

theorem map_flipByte_flipByte (l : List Byte) : (l.map flipByte).map flipByte = l := by
  simp [List.map_map, Function.comp_def, flipByte_flipByte]

theorem mainOf_done_of_honest {κ δ : Type} (E : Env κ δ) (ks : κ) (ds : δ) (card : Card)
    (hmarshal : (E.json.Marshal card).2 = none)
    (hunmarshal : ∀ data : ByteSlice, data.toList = (E.json.Marshal card).1.toList →
      E.json.Unmarshal data Card.zero = (card, none))
    (hencrypt : ∀ (s : κ) (req : EncryptRequest),
      req.PlaintextCrc32C = some ⟨(crc32c req.Plaintext : Int)⟩ →
      ∃ resp, (E.kmsClient.Encrypt s req).2 = Except.ok resp ∧
        resp.VerifiedPlaintextCrc32C = true ∧
        resp.CiphertextCrc32C = some ⟨(crc32c resp.Ciphertext : Int)⟩)
    (hdecrypt : ∀ (s s1 : κ) (req : EncryptRequest) (resp : EncryptResponse)
        (dreq : DecryptRequest),
      (E.kmsClient.Encrypt s req).2 = Except.ok resp →
      dreq.Ciphertext = resp.Ciphertext →
      dreq.CiphertextCrc32C = some ⟨(crc32c dreq.Ciphertext : Int)⟩ →
      ∃ dresp, (E.kmsClient.Decrypt s1 dreq).2 = Except.ok dresp ∧
        dresp.Plaintext.toList = req.Plaintext.toList ∧
        dresp.PlaintextCrc32C = some ⟨(crc32c dresp.Plaintext : Int)⟩)
    (hstore : ∀ (s : δ) (k : Key) (t dst : Token),
      (E.datastoreClient.Put s k t).2 = none ∧
      (E.datastoreClient.Get (E.datastoreClient.Put s k t).1 k dst).2 = (t, none)) :
    mainOf E ks ds card = MainOutcome.done [card, card] := by
  -- serialise
  rcases hm : E.json.Marshal card with ⟨bytes, merr⟩
  rw [hm] at hmarshal hunmarshal
  simp only at hmarshal hunmarshal
  subst hmarshal
  -- encrypt
  have hreq : (encryptRequestOf bytes).PlaintextCrc32C =
      some ⟨(crc32c (encryptRequestOf bytes).Plaintext : Int)⟩ := by
    simp only [encryptRequestOf, int64_crc32c]
  obtain ⟨resp, hresp, hflag, hcrc⟩ := hencrypt ks (encryptRequestOf bytes) hreq
  rcases hE : E.kmsClient.Encrypt ks (encryptRequestOf bytes) with ⟨ks1, r⟩
  rw [hE] at hresp
  simp only at hresp
  subst hresp
  have henc : encrypt E.kmsClient ks bytes = (ks1, Outcome.ret resp.Ciphertext none) :=
    encrypt_of_match E.kmsClient ks ks1 bytes resp _ hE hflag hcrc (int64_crc32c _)
  -- save
  obtain ⟨hput, hget⟩ := hstore ds (generateKey E.newUUID)
    { Id := E.newUUID, MerchantId := "teste-artur", Provider := "provider", CardId := "",
      TokenProvider := "", DataCypheredCard := resp.Ciphertext, Date := E.nowUTC } Token.zero
  rcases hP : E.datastoreClient.Put ds (generateKey E.newUUID)
    { Id := E.newUUID, MerchantId := "teste-artur", Provider := "provider", CardId := "",
      TokenProvider := "", DataCypheredCard := resp.Ciphertext, Date := E.nowUTC }
    with ⟨ds1, perr⟩
  rw [hP] at hput hget
  simp only at hput hget
  subst hput
  -- decrypt, twice
  have hdec : ∀ s : κ, ∃ s2 data, decrypt E.kmsClient s resp.Ciphertext =
      (s2, Outcome.ret data none) ∧ data.toList = bytes.toList := by
    intro s
    have hdreq : (decryptRequestOf resp.Ciphertext).CiphertextCrc32C =
        some ⟨(crc32c (decryptRequestOf resp.Ciphertext).Ciphertext : Int)⟩ := by
      simp only [decryptRequestOf, int64_crc32c]
    obtain ⟨dresp, hd, hplain, hdcrc⟩ := hdecrypt ks s (encryptRequestOf bytes) resp
      (decryptRequestOf resp.Ciphertext) (by rw [hE]) rfl hdreq
    rcases hD : E.kmsClient.Decrypt s (decryptRequestOf resp.Ciphertext) with ⟨s2, r⟩
    rw [hD] at hd
    simp only at hd
    subst hd
    exact ⟨s2, dresp.Plaintext,
      decrypt_of_match E.kmsClient s s2 resp.Ciphertext dresp _ hD hdcrc (int64_crc32c _),
      hplain⟩
  obtain ⟨ks2, data, hdec1, hdata⟩ := hdec ks1
  obtain ⟨ks3, data2, hdec2, hdata2⟩ := hdec ks2
  -- load
  rcases hG : E.datastoreClient.Get ds1 (generateKey E.newUUID) Token.zero with ⟨ds2, got⟩
  rw [hG] at hget
  simp only at hget
  subst hget
  have hload : load E.datastoreClient ds1 E.newUUID = (ds2,
      { Id := E.newUUID, MerchantId := "teste-artur", Provider := "provider", CardId := "",
        TokenProvider := "", DataCypheredCard := resp.Ciphertext, Date := E.nowUTC }, none) :=
    load_of_found E.datastoreClient ds1 ds2 E.newUUID _ hG
  simp only [mainOf, createDataCardOf, hm, henc, save, hP, hdec1, hunmarshal data hdata,
    hload, hdec2, hunmarshal data2 hdata2]

/-! ## The plain JSON codec reads back what it writes -/

theorem expectBytes_append (l r : List Byte) : expectBytes l (l ++ r) = some r := by
  induction l with
  | nil => cases r <;> rfl
  | cons b bs ih => simp [expectBytes, ih]

theorem plainChar_toNat {c : Char} (h : plainChar c = true) :
    c.toNat < 127 ∧ c.toNat ≠ 34 := by
  simp [plainChar] at h
  omega

theorem asciiByte_ne_quote {c : Char} (h : plainChar c = true) : asciiByte c ≠ 34 := by
  obtain ⟨h1, h2⟩ := plainChar_toNat h
  intro he
  have := congrArg Fin.val he
  simp [asciiByte, Fin.ofNat] at this
  omega

theorem ofNat_asciiByte {c : Char} (h : plainChar c = true) :
    Char.ofNat (asciiByte c).val = c := by
  obtain ⟨h1, _⟩ := plainChar_toNat h
  have : (asciiByte c).val = c.toNat := by
    simp [asciiByte, Fin.ofNat]
    omega
  rw [this, Char.ofNat_toNat]

theorem untilQuote_map_asciiByte (l : List Char) (r : List Byte)
    (h : l.all plainChar = true) :
    untilQuote (l.map asciiByte ++ 34 :: r) = some (l.map asciiByte, r) := by
  induction l with
  | nil => simp [untilQuote]
  | cons c cs ih =>
    simp only [List.all_cons, Bool.and_eq_true] at h
    simp [untilQuote, asciiByte_ne_quote h.1, ih h.2]

theorem asciiString_map_asciiByte (l : List Char) (h : l.all plainChar = true) :
    (l.map asciiByte).map (fun b => Char.ofNat b.val) = l := by
  induction l with
  | nil => rfl
  | cons c cs ih =>
    simp only [List.all_cons, Bool.and_eq_true] at h
    simp [ofNat_asciiByte h.1, ih h.2]

theorem asciiString_ascii (s : String) (h : plainString s = true) :
    asciiString (ascii s) = s := by
  unfold asciiString ascii
  rw [asciiString_map_asciiByte s.toList h]
  rfl

theorem readMember_jsonMember (name value : String) (r : List Byte)
    (h : plainString value = true) :
    readMember name (jsonMember name value ++ r) = some (value, r) := by
  have h1 : jsonMember name value ++ r =
      ([34] ++ ascii name ++ [34, 58, 34]) ++ (ascii value ++ 34 :: r) := by
    simp [jsonMember]
  rw [h1]
  unfold readMember
  rw [expectBytes_append, Option.bind]
  rw [show ascii value = value.toList.map asciiByte from rfl,
    untilQuote_map_asciiByte value.toList r h]
  simp only [Option.map_some']
  rw [show (value.toList.map asciiByte) = ascii value from rfl, asciiString_ascii value h]

theorem readCard_plainMarshal (c : Card) (h : plainCard c = true) :
    readCard (plainMarshal c).1.toList = some c := by
  simp only [plainCard, Bool.and_eq_true] at h
  obtain ⟨⟨⟨h1, h2⟩, h3⟩, h4⟩ := h
  have e : (plainMarshal c).1.toList =
      [123] ++ (jsonMember "Number" c.Number ++ ([44] ++
        (jsonMember "CardHolderName" c.CardHolderName ++ ([44] ++
          (jsonMember "ExpirationMonth" c.ExpirationMonth ++ ([44] ++
            (jsonMember "ExpirationYear" c.ExpirationYear ++ ([125] ++ []))))))))  := by
    simp [plainMarshal, ByteSlice.toList]
  rw [e]
  unfold readCard
  simp only [expectBytes_append, Option.bind, readMember_jsonMember _ _ _ h1,
    readMember_jsonMember _ _ _ h2, readMember_jsonMember _ _ _ h3,
    readMember_jsonMember _ _ _ h4, if_true]

theorem plainJSON_reads_back (c : Card) (h : plainCard c = true) (data : ByteSlice)
    (hd : data.toList = (plainJSON.Marshal c).1.toList) :
    plainJSON.Unmarshal data Card.zero = (c, none) := by
  show (match readCard data.toList with
    | some c => (c, none)
    | none => (Card.zero, some (Error.mk "invalid character"))) = (c, none)
  rw [hd]
  show (match readCard (plainMarshal c).1.toList with
    | some c => (c, none)
    | none => (Card.zero, some (Error.mk "invalid character"))) = (c, none)
  rw [readCard_plainMarshal c h]

theorem flipKMS_encrypt_honest (s : Unit) (req : EncryptRequest)
    (h : req.PlaintextCrc32C = some ⟨(crc32c req.Plaintext : Int)⟩) :
    ∃ resp, (flipKMS.Encrypt s req).2 = Except.ok resp ∧
      resp.VerifiedPlaintextCrc32C = true ∧
      resp.CiphertextCrc32C = some ⟨(crc32c resp.Ciphertext : Int)⟩ := by
  refine ⟨_, rfl, ?_, ?_⟩
  · simp [h, int64_crc32c]
  · simp [int64_crc32c]

theorem flipKMS_decrypt_inverts (s s1 : Unit) (req : EncryptRequest)
    (resp : EncryptResponse) (dreq : DecryptRequest)
    (hresp : (flipKMS.Encrypt s req).2 = Except.ok resp)
    (hct : dreq.Ciphertext = resp.Ciphertext) :
    ∃ dresp, (flipKMS.Decrypt s1 dreq).2 = Except.ok dresp ∧
      dresp.Plaintext.toList = req.Plaintext.toList ∧
      dresp.PlaintextCrc32C = some ⟨(crc32c dresp.Plaintext : Int)⟩ := by
  have hr : resp.Ciphertext = ByteSlice.mk (req.Plaintext.toList.map flipByte) := by
    simp only [flipKMS, Except.ok.injEq] at hresp
    rw [← hresp]
  refine ⟨_, rfl, ?_, ?_⟩
  · show (List.map flipByte dreq.Ciphertext.toList) = req.Plaintext.toList
    rw [hct, hr]
    exact map_flipByte_flipByte _
  · simp [int64_crc32c]

/-- The round trip holds for every plain card, every identifier, every instant
and every initial state of the map store, when `main` runs against the
stand-in service and the plain JSON codec. -/
theorem mainOf_plain_card_round_trip (card : Card) (hplain : plainCard card = true)
    (id : String) (now : Time) (ds : MapStore) :
    mainOf { kmsClient := flipKMS, datastoreClient := mapStore, json := plainJSON,
             newUUID := id, nowUTC := now } () ds card =
      MainOutcome.done [card, card] :=
  mainOf_done_of_honest _ () ds card rfl (plainJSON_reads_back card hplain)
    flipKMS_encrypt_honest
    (fun s s1 req resp dreq hresp hct _ => flipKMS_decrypt_inverts s s1 req resp dreq hresp hct)
    (fun s k t dst => ⟨rfl, by
      show (mapStore.Get (mapStore.Put s k t).1 k dst).2 = (t, none)
      rw [mapStore_get_after_put]⟩)

/-- C1: for every card the JSON library serialises without error and reads
back from the serialised bytes, given a KMS that answers a request carrying
the right plaintext checksum with the verified flag and the right ciphertext
checksum, and whose `Decrypt` of that ciphertext gives back the bytes of the
plaintext with their right checksum, and a store whose `Get` returns what was
put under the key, the run of `main` on the card ends without panic and both
cards it prints, the one decrypted directly and the one decrypted from the
Token loaded by its Id, equal the original card. -/
theorem main_round_trip {κ δ : Type} (E : Env κ δ) (ks : κ) (ds : δ) (card : Card)
    (hmarshal : (E.json.Marshal card).2 = none)
    (hunmarshal : ∀ data : ByteSlice, data.toList = (E.json.Marshal card).1.toList →
      E.json.Unmarshal data Card.zero = (card, none))
    (hencrypt : ∀ (s : κ) (req : EncryptRequest),
      req.PlaintextCrc32C = some ⟨(crc32c req.Plaintext : Int)⟩ →
      ∃ resp, (E.kmsClient.Encrypt s req).2 = Except.ok resp ∧
        resp.VerifiedPlaintextCrc32C = true ∧
        resp.CiphertextCrc32C = some ⟨(crc32c resp.Ciphertext : Int)⟩)
    (hdecrypt : ∀ (s s1 : κ) (req : EncryptRequest) (resp : EncryptResponse)
        (dreq : DecryptRequest),
      (E.kmsClient.Encrypt s req).2 = Except.ok resp →
      dreq.Ciphertext = resp.Ciphertext →
      dreq.CiphertextCrc32C = some ⟨(crc32c dreq.Ciphertext : Int)⟩ →
      ∃ dresp, (E.kmsClient.Decrypt s1 dreq).2 = Except.ok dresp ∧
        dresp.Plaintext.toList = req.Plaintext.toList ∧
        dresp.PlaintextCrc32C = some ⟨(crc32c dresp.Plaintext : Int)⟩)
    (hstore : ∀ (s : δ) (k : Key) (t dst : Token),
      (E.datastoreClient.Put s k t).2 = none ∧
      (E.datastoreClient.Get (E.datastoreClient.Put s k t).1 k dst).2 = (t, none)) :
    mainOf E ks ds card = MainOutcome.done [card, card] :=
  mainOf_done_of_honest E ks ds card hmarshal hunmarshal hencrypt hdecrypt hstore

/-- Witness of C1: the card of the scenario, run against the stand-in service
that flips bits, the map store, initially empty, and the plain JSON codec. -/
theorem main_round_trip_witness :
    mainOf standInEnv () [] johnDoe = MainOutcome.done [johnDoe, johnDoe] :=
  main_round_trip standInEnv () [] johnDoe rfl
    (plainJSON_reads_back johnDoe (by decide))
    flipKMS_encrypt_honest
    (fun s s1 req resp dreq hresp hct _ => flipKMS_decrypt_inverts s s1 req resp dreq hresp hct)
    (fun s k t dst => ⟨rfl, by
      show (mapStore.Get (mapStore.Put s k t).1 k dst).2 = (t, none)
      rw [mapStore_get_after_put]⟩)

end KmsGcp
